import Mathlib

/-!
# MCCI Catena IQS620A driver: register protocol, configuration and timer

A shallow embedding of `Catena_Iqs620a.cpp` / `Catena_Iqs620a.h`.

* The two-wire transport (`Wire`) is external to the driver.  It is modelled
  as a record of arbitrary state-transforming functions over a state type `σ`,
  so that a statement quantified over `TwoWire σ` speaks about every behaviour
  of the bus.  Every call made on the transport is appended to a call log.
* Memory that the driver addresses through `uint8_t *` pointers is a map from
  byte offsets to values; a pointer is an offset into such a map and
  `nullptr` is `none`.
* `sizeof` applied to a pointer is the pointer size of the target, a field of
  `Platform`.
* Machine integers are `Nat`/`Int` with explicit reduction.
-/

namespace Iqs620a

/-! ## Constants of `Catena_Iqs620a.h` -/

def ONE_SEC : Nat := 1000
def THREE_SEC : Nat := 3000

def IQS620_PRODUCT_NR : Nat := 65
def IQS620N_SOFTWARE_NR : Nat := 8
def IQS620N_HARDWARE_NR : Nat := 130

def I2C_ADDRESS : Nat := 0x44

def VERSION_INFO : Nat := 0x00
def SYSTEM_FLAGS : Nat := 0x10
def CHANNEL0_DATA : Nat := 0x20
def CHANNEL1_DATA : Nat := 0x22
def CHANNEL2_DATA : Nat := 0x24
def CHANNEL3_DATA : Nat := 0x26
def CHANNEL4_DATA : Nat := 0x28
def CHANNEL5_DATA : Nat := 0x2A
def PXS_SETTINGS_0 : Nat := 0x40
def PXS_SETTINGS_1 : Nat := 0x50
def PXS_UI_SETTINGS : Nat := 0x60
def SAR_UI_SETTINGS : Nat := 0x70
def METAL_UI_SETTINGS : Nat := 0x80
def HALL_SENS_SETTINGS : Nat := 0x90
def HALL_UI_SETTINGS : Nat := 0xA0
def TEMP_UI_SETTINGS : Nat := 0xC0
def DEV_SETTINGS : Nat := 0xD0

def ACK_RESET : Nat := 0x40
def REDO_ATI_ALL : Nat := 0x02
def DO_RESEED : Nat := 0x01
def nSYSTEM_SETTINGS : Nat := 0x08

/-- PXS Settings 0, register 0x40. -/
def nPXS_Setup_0 : List Nat :=
  [0x01, 0x01, 0x02, 0x67, 0x67, 0x67, 0xE0, 0xE0, 0xD0, 0x06, 0x06, 0x06]

/-- PXS Settings 1, register 0x50: the single entry `nPXS_SETTINGS1_8`. -/
def nPXS : List Nat := [0x40]

/-- PXS UI, register 0x60. -/
def nPXSUi : List Nat := [0x16, 0x25, 0x13, 0x24, 0x16, 0x25, 0x0A]

/-- SAR UI, register 0x70. -/
def nSARUi : List Nat := [0x13, 0x24, 0x01, 0x16, 0x25, 0x0A]

/-- Metal detect UI, register 0x80. -/
def nMetalDetect : List Nat := [0xA2, 0x0A, 0x16, 0x25]

/-- Hall sensor settings, register 0x90. -/
def nHall_Sens : List Nat := [0x03, 0x50, 0x0D, 0x47]

/-- Hall switch UI, register 0xA0. -/
def nHall_UI : List Nat := [0x00, 0x19, 0x19]

/-- Temperature UI, register 0xC0. -/
def nTemp_UI : List Nat := [0x00, 0x03, 0x03, 0xD5]

/-- Device and PMU settings, register 0xD0. -/
def nDevSetup : List Nat :=
  [nSYSTEM_SETTINGS ||| REDO_ATI_ALL ||| DO_RESEED ||| ACK_RESET,
   0x3F, 0x03, 0x10, 0x30, 0x08, 0x14, 0x00, 0x00]

/-- The nine configuration tables with the register each one is written to, in
the order in which `configureIqs620n` writes them. -/
def configTables : List (Nat × List Nat) :=
  [(DEV_SETTINGS, nDevSetup), (PXS_SETTINGS_0, nPXS_Setup_0), (PXS_SETTINGS_1, nPXS),
   (PXS_UI_SETTINGS, nPXSUi), (SAR_UI_SETTINGS, nSARUi), (METAL_UI_SETTINGS, nMetalDetect),
   (HALL_SENS_SETTINGS, nHall_Sens), (HALL_UI_SETTINGS, nHall_UI), (TEMP_UI_SETTINGS, nTemp_UI)]

/-- The enumerator `IQS620n = 1` of `IC_Type_e`. -/
def IQS620n : Nat := 1

/-! ## Target parameters -/

/-- What the translation unit takes from the compilation target.

* `ptrSize` is `sizeof(uint8_t *)`: the source applies `sizeof` to pointers in
  `writeRegister` (`sizeof(pData)`) and in the status and channel reads
  (`sizeof(&m_iqs620n...)`).
* `offsetofCh` is the offset of `Ch[0]` inside `IQS620n_t` (the one-byte
  `SystemFlags` union followed by padding up to the alignment of `uint16_t`).
* `past r i` is the byte found `i` places past the end of the constant table
  written to register `r`; `writeRegister` reads there when the table is
  shorter than a pointer. -/
structure Platform where
  ptrSize : Nat
  offsetofCh : Nat
  past : Nat → Nat → Nat

/-! ## Machine integers -/

/-- Conversion of an `int` to `uint8_t`. -/
def toUint8 (x : Int) : Nat := (x % 256).toNat

/-- The conversion `unsigned(x)` of an `int`, for a 32-bit `unsigned`.
(The only use compares the result with a length of at most 32; a 16-bit
`unsigned` would give the same verdicts.) -/
def toUnsigned (x : Int) : Nat := (x % 4294967296).toNat

/-- Conversion of an integer to `int16_t` (two's complement). -/
def toInt16 (x : Int) : Int := (x + 32768) % 65536 - 32768

/-- Reduction to `uint32_t`. -/
def toUint32 (x : Nat) : Nat := x % 4294967296

/-! ## Byte memory -/

/-- The byte held at offset `a`. -/
def byteAt (m : Nat → Nat) (a : Nat) : Nat := m a % 256

/-- Memory after storing `v` at offset `a`. -/
def store (m : Nat → Nat) (a v : Nat) : Nat → Nat :=
  fun j => if j = a then v else m j

/-! ## The two-wire transport -/

/-- One call made on the transport, with its arguments. -/
inductive Call where
  | beginTransmission (address : Nat)
  | write (byte : Nat)
  | endTransmission
  | requestFrom (address quantity : Nat)
  | available
  | read
  deriving DecidableEq, Repr

/-- The primitives of the Arduino `Wire` object used by the driver, over an
arbitrary transport state `σ`: `write` returns the number of bytes accepted,
`endTransmission` a completion status (0 is success), `requestFrom` the
number of bytes acknowledged, `available` the number of bytes waiting and
`read` the next byte (or a negative value). -/
structure TwoWire (σ : Type) where
  beginTransmission : Nat → σ → σ
  write : Nat → σ → Nat × σ
  endTransmission : σ → Nat × σ
  requestFrom : Nat → Nat → σ → Nat × σ
  available : σ → Int × σ
  read : σ → Int × σ

/-- The transport state together with the log of the calls made so far,
oldest first. -/
structure Bus (σ : Type) where
  dev : σ
  log : List Call

namespace Bus

variable {σ : Type}

def beginTransmission (W : TwoWire σ) (address : Nat) (b : Bus σ) : Bus σ :=
  ⟨W.beginTransmission address b.dev, b.log ++ [Call.beginTransmission address]⟩

def write (W : TwoWire σ) (byte : Nat) (b : Bus σ) : Nat × Bus σ :=
  ((W.write byte b.dev).1, ⟨(W.write byte b.dev).2, b.log ++ [Call.write byte]⟩)

def endTransmission (W : TwoWire σ) (b : Bus σ) : Nat × Bus σ :=
  ((W.endTransmission b.dev).1, ⟨(W.endTransmission b.dev).2, b.log ++ [Call.endTransmission]⟩)

def requestFrom (W : TwoWire σ) (address quantity : Nat) (b : Bus σ) : Nat × Bus σ :=
  ((W.requestFrom address quantity b.dev).1,
   ⟨(W.requestFrom address quantity b.dev).2, b.log ++ [Call.requestFrom address quantity]⟩)

def available (W : TwoWire σ) (b : Bus σ) : Int × Bus σ :=
  ((W.available b.dev).1, ⟨(W.available b.dev).2, b.log ++ [Call.available]⟩)

def read (W : TwoWire σ) (b : Bus σ) : Int × Bus σ :=
  ((W.read b.dev).1, ⟨(W.read b.dev).2, b.log ++ [Call.read]⟩)

end Bus

/-! ## Register access -/

section RegisterAccess

variable {σ : Type}

/-- The loop `for (uint8_t i = 0; i < sizeof(pData); i++) Wire.write(pData[i]);`
of `writeRegister`, with `n` iterations left and index `i` (a `uint8_t` holds
every index below the size of a pointer). -/
def writeLoop (W : TwoWire σ) (pData : Nat → Nat) : Nat → Nat → Bus σ → Bus σ
  | 0, _, b => b
  | n + 1, i, b => writeLoop W pData n (i + 1) (Bus.write W (pData i % 256) b).2

/-- Embedding of `cIQS620A::writeRegister(uint16_t command, uint8_t* pData)`.
The bound of the loop is `sizeof(pData)`, the size of a pointer, passed as
`ptrSize`; `pData i` is the byte at `pData[i]`. -/
def writeRegister (W : TwoWire σ) (ptrSize : Nat) (command : Nat) (pData : Nat → Nat)
    (b : Bus σ) : Bool × Bus σ :=
  let b1 := Bus.beginTransmission W I2C_ADDRESS b
  let b2 := (Bus.write W (command % 256) b1).2
  let b3 := writeLoop W pData ptrSize 0 b2
  let e := Bus.endTransmission W b3
  if e.1 ≠ 0 then (false, e.2) else (true, e.2)

/-- The loop `for (unsigned i = 0; i < nResult; ++i) pBuffer[i] = Wire.read();`
of `readRegisters`, with `n` iterations left and index `i`; `p` is the
offset `pBuffer` points to. -/
def readLoop (W : TwoWire σ) (p : Nat) : Nat → Nat → (Nat → Nat) → Bus σ → (Nat → Nat) × Bus σ
  | 0, _, mem, b => (mem, b)
  | n + 1, i, mem, b =>
      readLoop W p n (i + 1) (store mem (p + i) (toUint8 (Bus.read W b).1)) (Bus.read W b).2

/-- Embedding of `cIQS620A::readRegisters(uint16_t command, uint8_t *pBuffer,
size_t nBuffer)`.  `mem` is the memory `pBuffer` points into and `pBuffer` the
offset it points to (`none` for `nullptr`).  The result is the returned
boolean, the memory and the bus afterwards. -/
def readRegisters (W : TwoWire σ) (command : Nat) (mem : Nat → Nat) (pBuffer : Option Nat)
    (nBuffer : Nat) (b : Bus σ) : Bool × (Nat → Nat) × Bus σ :=
  match pBuffer with
  | none => (false, mem, b)
  | some p =>
    if nBuffer > 32 then (false, mem, b) else
    let b1 := Bus.beginTransmission W I2C_ADDRESS b
    let w := Bus.write W (command % 256) b1
    if w.1 ≠ 1 then (false, mem, w.2) else
    let e := Bus.endTransmission W w.2
    if e.1 ≠ 0 then (false, mem, e.2) else
    let q := Bus.requestFrom W I2C_ADDRESS (nBuffer % 256) e.2
    if q.1 ≠ nBuffer then (false, mem, q.2) else
    let a := Bus.available W q.2
    let nResult := toUnsigned a.1
    if nResult > nBuffer then (false, mem, a.2) else
    let l := readLoop W p nResult 0 mem a.2
    if nResult ≠ nBuffer then (false, l.1, l.2) else (true, l.1, l.2)

end RegisterAccess

/-! ## Driver state -/

/-- The `Timer_t` record. -/
structure Timer_t where
  Timer_counter : Nat
  Timer_start : Nat
  TimerExpired : Bool

/-- The data members of `cIQS620A`.

`m_iqs620n` is the memory starting at the address of the `IQS620n_t` record:
offset 0 is `SystemFlags`, offsets `offsetofCh + 2k` and `offsetofCh + 2k + 1`
are `Ch[k].Ch_Low` and `Ch[k].Ch_High`; the record ends at `offsetofCh + 12`.
`m_buffer` is the memory starting at `m_buffer[0]`; the array has 20 bytes.

In the object the members lie one after the other in the order of their
declaration: `m_chipReady` is the byte right after the record (offset
`offsetofCh + 12` from the start of `m_iqs620n`) and `m_buffer[i]` the byte at
offset `offsetofCh + 13 + i`.  `m_chipReady` and `m_buffer` are the
authority for these bytes.  `iqsRead`, whose reads store past the end of the
record, works on the object memory put together from the three members
(`objectMemory`) and hands the three back in step with it.  The status read
of `configureIqs620n` stays inside the record as long as a pointer is not
longer than the record. -/
structure cIQS620A where
  m_iqs620n : Nat → Nat
  m_chipReady : Bool
  m_buffer : Nat → Nat
  m_icType : Nat
  m_errorTimer : Timer_t
  m_mainTimer : Timer_t

/-- The value of `sizeof(m_buffer)`. -/
def sizeofBuffer : Nat := 20

/-- The bit-field `SystemFlags.InAti`: bit 2 of the status byte. -/
def InAti (d : cIQS620A) : Bool := decide (byteAt d.m_iqs620n 0 / 4 % 2 = 1)

/-- Offset of `Ch[k].Ch_Low` from the start of `m_iqs620n`. -/
def chLow (P : Platform) (k : Nat) : Nat := P.offsetofCh + 2 * k

/-- The union member `Ch[k].Ch`: the `uint16_t` overlaying `Ch_Low` and
`Ch_High` (low byte first). -/
def Ch (P : Platform) (d : cIQS620A) (k : Nat) : Nat :=
  byteAt d.m_iqs620n (chLow P k) + 256 * byteAt d.m_iqs620n (chLow P k + 1)

/-- Offset of `m_chipReady` from the start of `m_iqs620n`: the byte right
after the record (`sizeof(IQS620n_t)`). -/
def chipReadyAt (P : Platform) : Nat := P.offsetofCh + 12

/-- Offset of `m_buffer[0]` from the start of `m_iqs620n`: the byte right after
`m_chipReady`. -/
def bufferAt (P : Platform) : Nat := P.offsetofCh + 13

/-- The memory of the object from the start of `m_iqs620n` on: the record,
then the byte of `m_chipReady`, then `m_buffer`.  (The 20 bytes of `m_buffer`
end at offset `offsetofCh + 33`; the reads of `iqsRead` reach no further as
long as a pointer has at most 23 bytes.) -/
def objectMemory (P : Platform) (d : cIQS620A) : Nat → Nat :=
  fun a =>
    if a < chipReadyAt P then d.m_iqs620n a
    else if a = chipReadyAt P then d.m_chipReady.toNat
    else d.m_buffer (a - bufferAt P)

/-- The pointer `(uint8_t *)table` for a constant table written to register
`command`: inside the table its bytes, past its end what the target has there. -/
def tablePtr (P : Platform) (command : Nat) (table : List Nat) : Nat → Nat :=
  fun i => table.getD i (P.past command (i - table.length))

/-! ## Timer helper -/

/-- The value `millis()` returns when `now` milliseconds have elapsed since
start-up: a 32-bit counter (`unsigned long` on the Arduino targets), stored
in the `uint32_t` members of `Timer_t`. -/
def millis (now : Nat) : Nat := toUint32 now

/-- Embedding of `cIQS620A::setTimer(Timer_t* timer)`, called at time `now`. -/
def setTimer (timer : Timer_t) (now : Nat) : Timer_t :=
  { timer with TimerExpired := false, Timer_start := millis now }

/-- Embedding of the overload `cIQS620A::setTimer(Timer_t* timer, uint32_t time)`,
called at time `now`. -/
def setTimerTime (timer : Timer_t) (time : Nat) (now : Nat) : Timer_t :=
  { timer with TimerExpired := false, Timer_start := millis now, Timer_counter := toUint32 time }

/-- Embedding of `cIQS620A::timerExpired(Timer_t* timer)`, called at time `now`:
the returned flag and the timer afterwards.  The subtraction is that of
`uint32_t`. -/
def timerExpired (timer : Timer_t) (now : Nat) : Bool × Timer_t :=
  if toUint32 (millis now + 4294967296 - timer.Timer_start) ≥ timer.Timer_counter then
    (true, { timer with TimerExpired := true })
  else
    (false, { timer with TimerExpired := false })

/-! ## Getters -/

/-- Embedding of `cIQS620A::getSarCountCh0`. -/
def getSarCountCh0 (P : Platform) (d : cIQS620A) : Int := toInt16 (Ch P d 0)

/-- Embedding of `cIQS620A::getSarCountCh1`. -/
def getSarCountCh1 (P : Platform) (d : cIQS620A) : Int := toInt16 (Ch P d 1)

/-- Embedding of `cIQS620A::getSarCountCh2`. -/
def getSarCountCh2 (P : Platform) (d : cIQS620A) : Int := toInt16 (Ch P d 2)

/-- Embedding of `cIQS620A::getAmplitude`. -/
def getAmplitude (P : Platform) (d : cIQS620A) : Int :=
  let hallEffectch4 : Int := toInt16 (Ch P d 4)
  let hallEffectch5 : Int := toInt16 (Ch P d 5)
  toInt16 (hallEffectch4 - hallEffectch5)

/-! ## Configuration and polling -/

section Driver

variable {σ : Type}

/-- The loop `do res |= readRegisters(SYSTEM_FLAGS, ...); while (!res && InAti);`
of `configureIqs620n`.  Each unit of `fuel` pays for one iteration; `none`
means the loop was still running when the fuel ran out. -/
def statusLoop (P : Platform) (W : TwoWire σ) :
    Nat → Nat → cIQS620A → Bus σ → Option (Nat × cIQS620A × Bus σ)
  | 0, _, _, _ => none
  | fuel + 1, res, d, b =>
    let r := readRegisters W SYSTEM_FLAGS d.m_iqs620n (some 0) P.ptrSize b
    let res1 := res ||| r.1.toNat
    let d1 := { d with m_iqs620n := r.2.1 }
    if res1 = 0 ∧ InAti d1 = true then statusLoop P W fuel res1 d1 r.2.2
    else some (res1, d1, r.2.2)

/-- The nine statements `res |= writeRegister(...)` of `configureIqs620n`:
the value of `res` and the bus after them. -/
def configWrites (P : Platform) (W : TwoWire σ) (b : Bus σ) : Nat × Bus σ :=
  let res := 0
  let w1 := writeRegister W P.ptrSize DEV_SETTINGS (tablePtr P DEV_SETTINGS nDevSetup) b
  let res := res ||| w1.1.toNat
  let w2 := writeRegister W P.ptrSize PXS_SETTINGS_0 (tablePtr P PXS_SETTINGS_0 nPXS_Setup_0) w1.2
  let res := res ||| w2.1.toNat
  let w3 := writeRegister W P.ptrSize PXS_SETTINGS_1 (tablePtr P PXS_SETTINGS_1 nPXS) w2.2
  let res := res ||| w3.1.toNat
  let w4 := writeRegister W P.ptrSize PXS_UI_SETTINGS (tablePtr P PXS_UI_SETTINGS nPXSUi) w3.2
  let res := res ||| w4.1.toNat
  let w5 := writeRegister W P.ptrSize SAR_UI_SETTINGS (tablePtr P SAR_UI_SETTINGS nSARUi) w4.2
  let res := res ||| w5.1.toNat
  let w6 := writeRegister W P.ptrSize METAL_UI_SETTINGS
    (tablePtr P METAL_UI_SETTINGS nMetalDetect) w5.2
  let res := res ||| w6.1.toNat
  let w7 := writeRegister W P.ptrSize HALL_SENS_SETTINGS
    (tablePtr P HALL_SENS_SETTINGS nHall_Sens) w6.2
  let res := res ||| w7.1.toNat
  let w8 := writeRegister W P.ptrSize HALL_UI_SETTINGS (tablePtr P HALL_UI_SETTINGS nHall_UI) w7.2
  let res := res ||| w8.1.toNat
  let w9 := writeRegister W P.ptrSize TEMP_UI_SETTINGS (tablePtr P TEMP_UI_SETTINGS nTemp_UI) w8.2
  let res := res ||| w9.1.toNat
  (res, w9.2)

/-- Embedding of `cIQS620A::configureIqs620n`: the returned `res`, the driver
and the bus afterwards, or `none` when the status loop outlives `fuel`. -/
def configureIqs620n (P : Platform) (W : TwoWire σ) (fuel : Nat) (d : cIQS620A) (b : Bus σ) :
    Option (Nat × cIQS620A × Bus σ) :=
  let w := configWrites P W b
  statusLoop P W fuel w.1 d w.2

/-- Embedding of the body of `cIQS620A::iqsRead`.  `tSet` and `tCheck` are the
times of its two `millis()` calls (in `setTimer` and in `timerExpired`).

The reads work on the object memory: `m_buffer` is the pointer `bufferAt P`
into it, `&m_iqs620n.SystemFlags.SystemFlags` the pointer 0 and
`&m_iqs620n.Ch[k].Ch_Low` the pointer `chLow P k`; the assignment
`m_chipReady = true` stores 1 in the byte of that member.

The source function ends without a `return` statement; the first component
is the value of the local `res` when control reaches the end of the body. -/
def iqsRead (P : Platform) (W : TwoWire σ) (tSet tCheck : Nat) (d : cIQS620A) (b : Bus σ) :
    Nat × cIQS620A × Bus σ :=
  let s : Nat × (Nat → Nat) × Bus σ :=
    if d.m_icType = IQS620n then
      let r0 := readRegisters W VERSION_INFO (objectMemory P d) (some (bufferAt P))
        sizeofBuffer b
      let res := r0.1.toNat
      let r1 := readRegisters W SYSTEM_FLAGS r0.2.1 (some 0) P.ptrSize r0.2.2
      let res := res ||| r1.1.toNat
      let r2 := readRegisters W CHANNEL0_DATA r1.2.1 (some (chLow P 0)) P.ptrSize r1.2.2
      let res := res ||| r2.1.toNat
      let r3 := readRegisters W CHANNEL1_DATA r2.2.1 (some (chLow P 1)) P.ptrSize r2.2.2
      let res := res ||| r3.1.toNat
      let r4 := readRegisters W CHANNEL2_DATA r3.2.1 (some (chLow P 2)) P.ptrSize r3.2.2
      let res := res ||| r4.1.toNat
      let r5 := readRegisters W CHANNEL4_DATA r4.2.1 (some (chLow P 4)) P.ptrSize r4.2.2
      let res := res ||| r5.1.toNat
      let r6 := readRegisters W CHANNEL5_DATA r5.2.1 (some (chLow P 5)) P.ptrSize r5.2.2
      let res := res ||| r6.1.toNat
      (res, r6.2.1, r6.2.2)
    else (0, objectMemory P d, b)
  let t1 := setTimer d.m_errorTimer tSet
  let mem := store s.2.1 (chipReadyAt P) 1
  let t2 := (timerExpired t1 tCheck).2
  (s.1,
   { d with
     m_iqs620n := mem
     m_chipReady := true
     m_buffer := fun i => mem (bufferAt P + i)
     m_errorTimer := t2 },
   s.2.2)

/-- How a call of `begin` ends: in the endless loop `while(1);` that follows the
message "Err invalid IC! Check wiring...", or at the end of its body. -/
inductive Outcome (α : Type) where
  | halted (s : α)
  | returned (s : α)

/-- Embedding of `cIQS620A::begin`, with `now` the time of the `millis()` call in
`setTimer(&m_mainTimer)`.  `none` means that a call of `configureIqs620n`
outlived `fuel`.  Serial output and `delay` leave the state unchanged. -/
def begin (P : Platform) (W : TwoWire σ) (fuel : Nat) (now : Nat) (d : cIQS620A) (b : Bus σ) :
    Option (Outcome (cIQS620A × Bus σ)) :=
  match configureIqs620n P W fuel d b with
  | none => none
  | some (res, d1, b1) =>
    let r := readRegisters W VERSION_INFO d1.m_buffer (some 0) sizeofBuffer b1
    let d2 := { d1 with m_buffer := r.2.1 }
    if byteAt d2.m_buffer 0 = IQS620_PRODUCT_NR ∧ byteAt d2.m_buffer 1 = IQS620N_SOFTWARE_NR
        ∧ byteAt d2.m_buffer 2 = IQS620N_HARDWARE_NR then
      let d3 := { d2 with m_icType := IQS620n }
      let d4 := { d3 with m_mainTimer := setTimer d3.m_mainTimer now }
      let c : Option (Nat × cIQS620A × Bus σ) :=
        if d4.m_icType = IQS620n then configureIqs620n P W fuel d4 r.2.2
        else some (res, d4, r.2.2)
      match c with
      | none => none
      | some (_, d5, b5) =>
        let d6 := { d5 with m_errorTimer := { d5.m_errorTimer with Timer_counter := THREE_SEC } }
        let d7 := { d6 with m_mainTimer := { d6.m_mainTimer with Timer_counter := ONE_SEC } }
        some (Outcome.returned (d7, b5))
    else
      some (Outcome.halted (d2, r.2.2))

end Driver

/-! ## Simulated transports -/

/-- A simulated device on the bus.  `regs` is its register file, `ptr` the
register pointer set by the first byte of a write transaction, `tx` the bytes
queued since `beginTransmission`, `rx` the bytes waiting to be read, and
`atiReads` the number of coming status-register reads that still report
attunement in progress. -/
structure SimDevice where
  regs : Nat → Nat
  ptr : Nat
  tx : List Nat
  rx : List Nat
  atiReads : Nat

/-- Store the bytes `data` at consecutive addresses from `a` on. -/
def storeList (m : Nat → Nat) : Nat → List Nat → Nat → Nat
  | _, [] => m
  | a, x :: xs => storeList (store m a x) (a + 1) xs

/-- The byte the simulated device returns for register address `a`: the
register file, except that bit 2 of the status register follows `atiReads`. -/
def SimDevice.byte (s : SimDevice) (a : Nat) : Nat :=
  if a = SYSTEM_FLAGS then
    byteAt s.regs a % 4 + (if 0 < s.atiReads then 4 else 0) + byteAt s.regs a / 8 * 8
  else byteAt s.regs a

/-- The simulated transport: every transaction succeeds; a write transaction
sets the register pointer and stores the remaining bytes at consecutive
register addresses; a request delivers consecutive registers from the
pointer on. -/
def simWire : TwoWire SimDevice where
  beginTransmission := fun _ s => { s with tx := [] }
  write := fun x s => (1, { s with tx := s.tx ++ [x] })
  endTransmission := fun s =>
    match s.tx with
    | [] => (0, s)
    | p :: data => (0, { s with ptr := p, regs := storeList s.regs p data, tx := [] })
  requestFrom := fun _ n s =>
    (n, { s with
            rx := (List.range n).map (fun i => s.byte (s.ptr + i)),
            atiReads := if s.ptr ≤ SYSTEM_FLAGS ∧ SYSTEM_FLAGS < s.ptr + n
                        then s.atiReads - 1 else s.atiReads })
  available := fun s => ((s.rx.length : Int), s)
  read := fun s =>
    match s.rx with
    | [] => (-1, s)
    | x :: r => ((x : Int), { s with rx := r })

/-- A transport on which nothing answers: every transaction is reported as not
acknowledged (status 2), no byte is ever delivered. -/
def deadWire : TwoWire Unit where
  beginTransmission := fun _ s => s
  write := fun _ s => (1, s)
  endTransmission := fun s => (2, s)
  requestFrom := fun _ _ s => (0, s)
  available := fun s => (0, s)
  read := fun s => (-1, s)

/-! ## Concrete inputs -/

/-- A 32-bit target: four-byte pointers, `Ch` at offset 2, zero bytes after
every table. -/
def demoPlatform : Platform := ⟨4, 2, fun _ _ => 0⟩

/-- A simulated device whose version registers hold 65, 8, 130 and whose other
registers hold their own address plus one. -/
def demoDevice : SimDevice :=
  ⟨fun a => if a = 0 then 65 else if a = 1 then 8 else if a = 2 then 130 else a + 1, 0, [], [], 0⟩

/-- A bus with the demo device attached and an empty call log. -/
def demoBus : Bus SimDevice := ⟨demoDevice, []⟩

/-- A bus on which nothing answers, with an empty call log. -/
def deadBus : Bus Unit := ⟨(), []⟩

/-- Memory holding zero everywhere. -/
def zeroMem : Nat → Nat := fun _ => 0

/-- A driver object with all members zero. -/
def demoDriver : cIQS620A := ⟨zeroMem, false, zeroMem, 0, ⟨0, 0, false⟩, ⟨0, 0, false⟩⟩

/-- The demo driver with the given memory in place of `m_iqs620n`. -/
def driverWith (mem : Nat → Nat) : cIQS620A := { demoDriver with m_iqs620n := mem }

/-- Sensor memory for the demo platform with `Ch[4].Ch = 0x7FFF` (32767) and
`Ch[5].Ch = 0xFFFF` (-1 as `int16_t`). -/
def extremeChannels : Nat → Nat :=
  fun a => if a = 10 then 0xFF else if a = 11 then 0x7F else if a = 12 then 0xFF
    else if a = 13 then 0xFF else 0

/-- Sensor memory for the demo platform with `Ch[4].Ch = 10` and `Ch[5].Ch = 20`. -/
def tenTwenty : Nat → Nat := fun a => if a = 10 then 10 else if a = 12 then 20 else 0

/-- A timer with all members zero. -/
def zeroTimer : Timer_t := ⟨0, 0, false⟩

/-- The state of the simulated device when it has answered `requestFrom` in a
register read of `n` bytes at `command`, started in state `s`. -/
def SimDevice.requestedState (s : SimDevice) (command n : Nat) : SimDevice :=
  { regs := s.regs
    ptr := command % 256
    tx := []
    rx := (List.range n).map (fun i => s.byte (command % 256 + i))
    atiReads := if command % 256 ≤ SYSTEM_FLAGS ∧ SYSTEM_FLAGS < command % 256 + n
                then s.atiReads - 1 else s.atiReads }

/-- The calls `writeRegister` makes for a table written to register `command`
on platform `P`. -/
def sentBy (P : Platform) (command : Nat) (table : List Nat) : List Call :=
  Call.beginTransmission I2C_ADDRESS :: Call.write (command % 256) ::
    ((List.range P.ptrSize).map (fun j => Call.write (tablePtr P command table j % 256))
      ++ [Call.endTransmission])

/-- Whether a call is a `requestFrom`: the driver makes one per register read
that reaches the bus, and none otherwise. -/
def isRequest : Call → Bool
  | Call.requestFrom _ _ => true
  | _ => false

/-- The number of `requestFrom` calls in a call log. -/
def requestCount (log : List Call) : Nat := log.countP isRequest

/-- The demo device while it reports attunement for its next two status reads. -/
def busyDevice : SimDevice := { demoDevice with atiReads := 2 }

/-- A bus with the busy device attached and an empty call log. -/
def busyBus : Bus SimDevice := ⟨busyDevice, []⟩

/-- The demo device with hardware number 131 in place of 130. -/
def wrongDevice : SimDevice :=
  { demoDevice with regs := fun a => if a = 2 then 131 else demoDevice.regs a }

/-- A bus with the wrong device attached and an empty call log. -/
def wrongBus : Bus SimDevice := ⟨wrongDevice, []⟩

/-! ## Reference notions used in the statements -/

/-- The version-info read `begin` makes once its first configuration pass has
ended in `c`: returned flag, `m_buffer` and bus afterwards. -/
def versionRead {σ : Type} (W : TwoWire σ) (c : Nat × cIQS620A × Bus σ) :
    Bool × (Nat → Nat) × Bus σ :=
  readRegisters W VERSION_INFO c.2.1.m_buffer (some 0) sizeofBuffer c.2.2

/-- The driver with which `begin` enters its second configuration pass:
`m_buffer` as the version-info read left it, the device type recorded and the
main timer set at time `now`. -/
def identifiedDriver {σ : Type} (W : TwoWire σ) (c : Nat × cIQS620A × Bus σ) (now : Nat) :
    cIQS620A :=
  { c.2.1 with
    m_buffer := (versionRead W c).2.1
    m_icType := IQS620n
    m_mainTimer := setTimer c.2.1.m_mainTimer now }


/-- The bytes the transport hands over in `n` successive `read` calls from
state `s`, each converted to `uint8_t`, in the order of delivery. -/
def delivered {σ : Type} (W : TwoWire σ) : Nat → σ → List Nat
  | 0, _ => []
  | n + 1, s => toUint8 (W.read s).1 :: delivered W n (W.read s).2

/-- The transport state after `n` successive `read` calls from state `s`. -/
def afterReads {σ : Type} (W : TwoWire σ) : Nat → σ → σ
  | 0, s => s
  | n + 1, s => afterReads W n (W.read s).2

/-- The bus transaction the register write contract describes for a table:
one transmission to the device address made of the register address byte
followed by every byte of the table. -/
def wholeTableTransaction (command : Nat) (table : List Nat) : List Call :=
  Call.beginTransmission I2C_ADDRESS :: Call.write command ::
    (table.map Call.write ++ [Call.endTransmission])

/-- The answer of `Wire.write` (and the state after it) when a register read
for `command` addresses the device from transport state `s`. -/
def addressed {σ : Type} (W : TwoWire σ) (command : Nat) (s : σ) : Nat × σ :=
  W.write (command % 256) (W.beginTransmission I2C_ADDRESS s)

/-- The answer of `Wire.endTransmission` that closes the addressing of a
register read. -/
def ended {σ : Type} (W : TwoWire σ) (command : Nat) (s : σ) : Nat × σ :=
  W.endTransmission (addressed W command s).2

/-- The answer of `Wire.requestFrom` in a register read of `n` bytes. -/
def requested {σ : Type} (W : TwoWire σ) (command n : Nat) (s : σ) : Nat × σ :=
  W.requestFrom I2C_ADDRESS (n % 256) (ended W command s).2

/-- The answer of `Wire.available` in a register read of `n` bytes. -/
def availableAfter {σ : Type} (W : TwoWire σ) (command n : Nat) (s : σ) : Int × σ :=
  W.available (requested W command n s).2

/-- The 16-bit value with low byte `L` and high byte `H`, read as a two's
complement signed number. -/
def signed16 (L H : Nat) : Int :=
  if L + 256 * H < 32768 then (L + 256 * H : Int) else (L + 256 * H : Int) - 65536

/-- The demo device with 0x34, 0x12 at the data address of channel 0, 0xFE,
0xFF at that of channel 1 and 0x00, 0x80 at that of channel 2. -/
def channelDevice : SimDevice :=
  { demoDevice with
    regs := fun a => if a = 0x20 then 0x34 else if a = 0x21 then 0x12
      else if a = 0x22 then 0xFE else if a = 0x23 then 0xFF
      else if a = 0x24 then 0x00 else if a = 0x25 then 0x80 else demoDevice.regs a }

/-- A bus with the channel device attached and an empty call log. -/
def channelBus : Bus SimDevice := ⟨channelDevice, []⟩

/-- The demo driver once identified. -/
def identifiedDemo : cIQS620A := { demoDriver with m_icType := IQS620n }

/-! ## Concrete runs -/

/-- The first configuration pass on the wrong device, with one unit of fuel. -/
def wrongConfigured : Nat × cIQS620A × Bus SimDevice :=
  (configureIqs620n demoPlatform simWire 1 demoDriver wrongBus).getD (0, demoDriver, wrongBus)

/-- The first configuration pass on the demo device, with one unit of fuel. -/
def demoConfigured : Nat × cIQS620A × Bus SimDevice :=
  (configureIqs620n demoPlatform simWire 1 demoDriver demoBus).getD (0, demoDriver, demoBus)

/-- The second configuration pass on the demo device, with one unit of fuel. -/
def demoReconfigured : Nat × cIQS620A × Bus SimDevice :=
  (configureIqs620n demoPlatform simWire 1 (identifiedDriver simWire demoConfigured 0)
    (versionRead simWire demoConfigured).2.2).getD (0, demoDriver, demoBus)

/-! ## Reading a call log -/

/-- The register address bytes in a call log: the byte written right after
each `beginTransmission`, oldest first.  (Every register write and every
register read that reaches the bus starts with `beginTransmission` followed by
the write of the register address.) -/
def addressBytes : List Call → List Nat
  | [] => []
  | Call.beginTransmission _ :: rest =>
    match rest with
    | Call.write x :: _ => x :: addressBytes rest
    | _ => addressBytes rest
  | Call.write _ :: rest => addressBytes rest
  | Call.endTransmission :: rest => addressBytes rest
  | Call.requestFrom _ _ :: rest => addressBytes rest
  | Call.available :: rest => addressBytes rest
  | Call.read :: rest => addressBytes rest

/-- Whether a call is a `beginTransmission`. -/
def isBegin : Call → Bool
  | Call.beginTransmission _ => true
  | _ => false

/-- The number of transmissions begun in a call log. -/
def transactionCount (log : List Call) : Nat := log.countP isBegin

/-- The arguments (device address, quantity) of the `requestFrom` calls in a
call log, oldest first. -/
def requests : List Call → List (Nat × Nat)
  | [] => []
  | Call.requestFrom a n :: rest => (a, n) :: requests rest
  | Call.beginTransmission _ :: rest => requests rest
  | Call.write _ :: rest => requests rest
  | Call.endTransmission :: rest => requests rest
  | Call.available :: rest => requests rest
  | Call.read :: rest => requests rest

/-- Whether `tail` is what one register read of `n` bytes may leave in the
call log after the write of the register address: nothing (the address byte
was not accepted), or `endTransmission` alone (the transmission was not
completed), or `endTransmission` and a `requestFrom` of `n` bytes from the
device (the request fell short), or these two and `available`, followed by
at most `n` calls of `read`. -/
def isReadTail (n : Nat) : List Call → Bool
  | [] => true
  | [Call.endTransmission] => true
  | [Call.endTransmission, Call.requestFrom a q] => a == I2C_ADDRESS && q == n % 256
  | Call.endTransmission :: Call.requestFrom a q :: Call.available :: reads =>
    a == I2C_ADDRESS && q == n % 256 && reads.all (fun c => c == Call.read)
      && decide (reads.length ≤ n)
  | _ => false

/-- Whether `l` is the call sequence of one attempt to read `n` bytes from the
register `command`: the device is addressed, the register address is written,
and a tail accepted by `isReadTail` follows. -/
def isRegisterRead (command n : Nat) : List Call → Bool
  | Call.beginTransmission a :: Call.write x :: tail =>
    a == I2C_ADDRESS && x == command % 256 && isReadTail n tail
  | _ => false

/-- The calls of a register read of `n` bytes from the register `command` that
goes through: the device is addressed, the register address written, the
transmission ended, `n` bytes requested, `available` asked and `n` bytes
read. -/
def completeRead (command n : Nat) : List Call :=
  [Call.beginTransmission I2C_ADDRESS, Call.write (command % 256), Call.endTransmission,
   Call.requestFrom I2C_ADDRESS (n % 256), Call.available] ++ List.replicate n Call.read

/-- The calls of the nine register writes of `configureIqs620n`, in the order
of `configTables`. -/
def configTransactions (P : Platform) : List Call :=
  configTables.foldr (fun rt acc => sentBy P rt.1 rt.2 ++ acc) []

/-! ## The reads of a poll, one by one -/

/-- The reads `iqsRead` makes into the sensor record after the version-info
read, in order: the register address and the offset of the destination in
`m_iqs620n`. -/
def recordReads (P : Platform) : List (Nat × Nat) :=
  [(SYSTEM_FLAGS, 0), (CHANNEL0_DATA, chLow P 0), (CHANNEL1_DATA, chLow P 1),
   (CHANNEL2_DATA, chLow P 2), (CHANNEL4_DATA, chLow P 4), (CHANNEL5_DATA, chLow P 5)]

/-- The reads of the list `l` made one after the other, each of
`sizeof(pointer)` bytes, from the memory `mem` and the bus `b`: the flags they
return (first read first), the memory and the bus afterwards. -/
def runReads {σ : Type} (P : Platform) (W : TwoWire σ) :
    List (Nat × Nat) → (Nat → Nat) → Bus σ → List Bool × (Nat → Nat) × Bus σ
  | [], mem, b => ([], mem, b)
  | t :: l, mem, b =>
    let r := readRegisters W t.1 mem (some t.2) P.ptrSize b
    let u := runReads P W l r.2.1 r.2.2
    (r.1 :: u.1, u.2.1, u.2.2)

/-- The version-info read with which `iqsRead` starts: returned flag, object
memory and bus afterwards. -/
def pollVersionRead {σ : Type} (P : Platform) (W : TwoWire σ) (d : cIQS620A) (b : Bus σ) :
    Bool × (Nat → Nat) × Bus σ :=
  readRegisters W VERSION_INFO (objectMemory P d) (some (bufferAt P)) sizeofBuffer b

/-- The object memory right after the first `i + 1` of the record reads of a
poll: what the read number `i` (0 the status read, 1 to 5 the channel reads)
has left, seen from the start of `m_iqs620n`. -/
def recordAfterRead {σ : Type} (P : Platform) (W : TwoWire σ) (d : cIQS620A) (b : Bus σ)
    (i : Nat) : Nat → Nat :=
  (runReads P W ((recordReads P).take (i + 1)) (pollVersionRead P W d b).2.1
    (pollVersionRead P W d b).2.2).2.1

/-- Whether at least one of the seven reads of a poll returned true. -/
def anyReadSucceeded {σ : Type} (P : Platform) (W : TwoWire σ) (d : cIQS620A) (b : Bus σ) :
    Bool :=
  (pollVersionRead P W d b).1
    || (runReads P W (recordReads P) (pollVersionRead P W d b).2.1
        (pollVersionRead P W d b).2.2).1.any id

/-- A transport that acknowledges every request in full but then has a single
byte, 0xAB, available. -/
def shortWire : TwoWire Unit where
  beginTransmission := fun _ s => s
  write := fun _ s => (1, s)
  endTransmission := fun s => (0, s)
  requestFrom := fun _ n s => (n, s)
  available := fun s => (1, s)
  read := fun s => (0xAB, s)

/-- The configuration pass on the dead bus, with one unit of fuel. -/
def deadConfigured : Nat × cIQS620A × Bus Unit :=
  (configureIqs620n demoPlatform deadWire 1 demoDriver deadBus).getD (0, demoDriver, deadBus)

/-- A transport that completes its first `k` transmissions (`k` is the first
component of its state) and reports an error for every later one; each
completed request delivers bytes 0x5A. -/
def fadingWire : TwoWire (Nat × List Nat) where
  beginTransmission := fun _ s => s
  write := fun _ s => (1, s)
  endTransmission := fun s => if 0 < s.1 then (0, (s.1 - 1, s.2)) else (2, s)
  requestFrom := fun _ n s => (n, (s.1, List.replicate n 0x5A))
  available := fun s => ((s.2.length : Int), s)
  read := fun s =>
    match s.2 with
    | [] => (-1, s)
    | x :: r => ((x : Int), (s.1, r))

/-- A bus on which the first three transmissions complete and the later ones
fail, with an empty call log. -/
def fadingBus : Bus (Nat × List Nat) := ⟨(3, []), []⟩

/-- A bus with the short transport and an empty call log. -/
def shortBus : Bus Unit := ⟨(), []⟩

/-- Memory holding 7 everywhere. -/
def sevenMem : Nat → Nat := fun _ => 7

/-- The buffer read back from register `command` after `table` has been
written to it on the simulated device: `writeRegister(command, table)`
followed by `readRegisters(command, buffer, length of table)`, from the bus
`b` and with a buffer of zeros at offset 0. -/
def readBack (P : Platform) (command : Nat) (table : List Nat) (b : Bus SimDevice) :
    Bool × List Nat :=
  let w := writeRegister simWire P.ptrSize command (tablePtr P command table) b
  let rd := readRegisters simWire command zeroMem (some 0) table.length w.2
  (rd.1, (List.range table.length).map (fun i => rd.2.1 i))

/-! ## Register access: facts -/

section RegisterFacts

variable {σ : Type}

theorem store_same (m : Nat → Nat) (a v : Nat) : store m a v a = v := by
  simp [store]

theorem store_other (m : Nat → Nat) (a v j : Nat) (h : j ≠ a) : store m a v j = m j := by
  simp [store, h]

theorem toUint8_lt (x : Int) : toUint8 x < 256 := by
  unfold toUint8
  omega

theorem toUint8_natCast (v : Nat) (h : v < 256) : toUint8 (v : Int) = v := by
  unfold toUint8
  omega

theorem byteAt_lt (m : Nat → Nat) (a : Nat) : byteAt m a < 256 := by
  unfold byteAt
  omega

theorem toUnsigned_natCast (n : Nat) (h : n ≤ 32) : toUnsigned (n : Int) = n := by
  unfold toUnsigned
  omega

theorem writeLoop_log (W : TwoWire σ) (pData : Nat → Nat) (n i : Nat) (b : Bus σ) :
    (writeLoop W pData n i b).log
      = b.log ++ (List.range n).map (fun j => Call.write (pData (i + j) % 256)) := by
  induction n generalizing i b with
  | zero => simp [writeLoop]
  | succ n ih =>
    rw [writeLoop, ih, List.range_succ_eq_map]
    simp [Bus.write, List.map_map, Function.comp_def, Nat.add_assoc, Nat.add_comm 1]

theorem writeRegister_log (W : TwoWire σ) (ptrSize command : Nat) (pData : Nat → Nat)
    (b : Bus σ) :
    (writeRegister W ptrSize command pData b).2.log
      = b.log ++ (Call.beginTransmission I2C_ADDRESS :: Call.write (command % 256) ::
          ((List.range ptrSize).map (fun j => Call.write (pData j % 256))
            ++ [Call.endTransmission])) := by
  unfold writeRegister
  simp only []
  split <;> simp [Bus.endTransmission, writeLoop_log, Bus.write, Bus.beginTransmission]

theorem writeRegister_result (W : TwoWire σ) (ptrSize command : Nat) (pData : Nat → Nat)
    (b : Bus σ) :
    (writeRegister W ptrSize command pData b).1
      = decide ((W.endTransmission (writeLoop W pData ptrSize 0
          (Bus.write W (command % 256) (Bus.beginTransmission W I2C_ADDRESS b)).2).dev).1 = 0) := by
  unfold writeRegister
  simp only []
  split <;> simp_all [Bus.endTransmission]

theorem readLoop_outside (W : TwoWire σ) (p n i : Nat) (mem : Nat → Nat) (b : Bus σ) (a : Nat)
    (h : a < p + i ∨ p + i + n ≤ a) : (readLoop W p n i mem b).1 a = mem a := by
  induction n generalizing i mem b with
  | zero => simp [readLoop]
  | succ n ih =>
    rw [readLoop, ih]
    · exact store_other _ _ _ _ (by omega)
    · omega

theorem readLoop_inside (W : TwoWire σ) (p n i : Nat) (mem : Nat → Nat) (b : Bus σ) (j : Nat)
    (h : j < n) :
    (readLoop W p n i mem b).1 (p + i + j) = (delivered W n b.dev).getD j 0 := by
  induction n generalizing i mem b j with
  | zero => omega
  | succ n ih =>
    rw [readLoop, delivered]
    cases j with
    | zero =>
      rw [readLoop_outside _ _ _ _ _ _ _ (by omega)]
      simp [store, Bus.read]
    | succ j =>
      have := ih (i + 1) (store mem (p + i) (toUint8 (Bus.read W b).1)) (Bus.read W b).2 j
        (by omega)
      rw [show p + i + (j + 1) = p + (i + 1) + j by omega, this]
      simp [Bus.read]

theorem readLoop_bus (W : TwoWire σ) (p n i : Nat) (mem : Nat → Nat) (b : Bus σ) :
    (readLoop W p n i mem b).2
      = ⟨afterReads W n b.dev, b.log ++ List.replicate n Call.read⟩ := by
  induction n generalizing i mem b with
  | zero => simp [readLoop, afterReads]
  | succ n ih =>
    rw [readLoop, ih, afterReads]
    simp [Bus.read, List.replicate_succ]

theorem delivered_length (W : TwoWire σ) (n : Nat) (s : σ) : (delivered W n s).length = n := by
  induction n generalizing s with
  | zero => rfl
  | succ n ih => simp [delivered, ih]

theorem toUnsigned_eq_iff (x : Int) (n : Nat) (hx : -2147483648 ≤ x ∧ x < 2147483648)
    (hn : n ≤ 32) : toUnsigned x = n ↔ x = (n : Int) := by
  unfold toUnsigned
  omega

theorem readRegisters_some_true_iff (W : TwoWire σ) (command : Nat) (mem : Nat → Nat)
    (p nBuffer : Nat) (b : Bus σ) :
    (readRegisters W command mem (some p) nBuffer b).1 = true ↔
      nBuffer ≤ 32 ∧ (addressed W command b.dev).1 = 1 ∧ (ended W command b.dev).1 = 0
      ∧ (requested W command nBuffer b.dev).1 = nBuffer
      ∧ toUnsigned (availableAfter W command nBuffer b.dev).1 = nBuffer := by
  simp only [readRegisters, Bus.write, Bus.beginTransmission, Bus.endTransmission,
    Bus.requestFrom, Bus.available, addressed, ended, requested, availableAfter]
  split_ifs <;> simp_all
  omega

/-- C3 (what the code does): for every pointer size and every transport, at
least one of the nine configuration tables is not transmitted as the register
address byte followed by exactly the bytes of the table: `writeRegister`
always sends `sizeof(pData)` payload bytes, the size of a pointer, and the
tables have different lengths. -/
theorem writeRegister_payload_is_pointer_sized (P : Platform) (W : TwoWire σ) (b : Bus σ) :
    (∀ command pData,
      (writeRegister W P.ptrSize command pData b).2.log
        = b.log ++ (Call.beginTransmission I2C_ADDRESS :: Call.write (command % 256) ::
            ((List.range P.ptrSize).map (fun j => Call.write (pData j % 256))
              ++ [Call.endTransmission])))
    ∧ ∃ rt ∈ configTables,
        (writeRegister W P.ptrSize rt.1 (tablePtr P rt.1 rt.2) b).2.log
          ≠ b.log ++ wholeTableTransaction rt.1 rt.2 := by
  refine ⟨fun command pData => writeRegister_log W P.ptrSize command pData b, ?_⟩
  by_cases h : P.ptrSize = 12
  · refine ⟨(PXS_SETTINGS_1, nPXS), by simp [configTables], fun hEq => ?_⟩
    have := congrArg List.length hEq
    simp [writeRegister_log, wholeTableTransaction, nPXS, h] at this
  · refine ⟨(PXS_SETTINGS_0, nPXS_Setup_0), by simp [configTables], fun hEq => ?_⟩
    have := congrArg List.length hEq
    simp [writeRegister_log, wholeTableTransaction, nPXS_Setup_0] at this
    omega

/-- C4: `readRegisters` returns true exactly when the buffer is not null, the
length is at most 32, `Wire.write` of the register address returns 1,
`endTransmission` returns 0, `requestFrom` acknowledges exactly `nBuffer` bytes
and the available count (as the code takes it, through `unsigned`) is exactly
`nBuffer`. -/
theorem readRegisters_true_iff (W : TwoWire σ) (command : Nat) (mem : Nat → Nat)
    (pBuffer : Option Nat) (nBuffer : Nat) (b : Bus σ) :
    (readRegisters W command mem pBuffer nBuffer b).1 = true ↔
      pBuffer ≠ none ∧ nBuffer ≤ 32 ∧ (addressed W command b.dev).1 = 1 ∧
      (ended W command b.dev).1 = 0 ∧ (requested W command nBuffer b.dev).1 = nBuffer ∧
      toUnsigned (availableAfter W command nBuffer b.dev).1 = nBuffer := by
  cases pBuffer with
  | none => simp [readRegisters]
  | some p =>
    simp only [readRegisters, Bus.write, Bus.beginTransmission, Bus.endTransmission,
      Bus.requestFrom, Bus.available, addressed, ended, requested, availableAfter]
    split_ifs <;> simp_all
    omega

/-- C5: a read with a null buffer or a length above 32 returns false and
leaves the bus (transport state and call log: no call was made) and the
memory as they were. -/
theorem readRegisters_rejects_without_bus_call (W : TwoWire σ) (command : Nat)
    (mem : Nat → Nat) (pBuffer : Option Nat) (nBuffer : Nat) (b : Bus σ)
    (h : pBuffer = none ∨ 32 < nBuffer) :
    readRegisters W command mem pBuffer nBuffer b = (false, mem, b) := by
  cases pBuffer with
  | none => simp [readRegisters]
  | some p =>
    have h32 : 32 < nBuffer := by simpa using h
    simp [readRegisters, h32]

theorem readRegisters_of_true (W : TwoWire σ) (command : Nat) (mem : Nat → Nat)
    (p nBuffer : Nat) (b : Bus σ)
    (h : (readRegisters W command mem (some p) nBuffer b).1 = true) :
    readRegisters W command mem (some p) nBuffer b
      = (true, readLoop W p nBuffer 0 mem
          ⟨(availableAfter W command nBuffer b.dev).2,
           b.log ++ [Call.beginTransmission I2C_ADDRESS, Call.write (command % 256),
             Call.endTransmission, Call.requestFrom I2C_ADDRESS (nBuffer % 256),
             Call.available]⟩) := by
  obtain ⟨h32, hw, he, hq, ha⟩ := (readRegisters_some_true_iff W command mem p nBuffer b).1 h
  simp only [addressed, ended, requested, availableAfter] at hw he hq ha ⊢
  simp only [readRegisters, Bus.write, Bus.beginTransmission, Bus.endTransmission,
    Bus.requestFrom, Bus.available, hw, he, hq, ha]
  simp [Nat.not_lt.2 h32]

theorem readRegisters_stored (W : TwoWire σ) (command : Nat) (mem : Nat → Nat)
    (p nBuffer : Nat) (b : Bus σ)
    (h : (readRegisters W command mem (some p) nBuffer b).1 = true) (j : Nat)
    (hj : j < nBuffer) :
    (readRegisters W command mem (some p) nBuffer b).2.1 (p + j)
      = (delivered W nBuffer (availableAfter W command nBuffer b.dev).2).getD j 0 := by
  rw [readRegisters_of_true W command mem p nBuffer b h]
  have := readLoop_inside W p nBuffer 0 mem
    ⟨(availableAfter W command nBuffer b.dev).2,
     b.log ++ [Call.beginTransmission I2C_ADDRESS, Call.write (command % 256),
       Call.endTransmission, Call.requestFrom I2C_ADDRESS (nBuffer % 256),
       Call.available]⟩ j hj
  simpa using this

/-- C6: when `readRegisters` returns true, `pBuffer[0..nBuffer)` holds exactly
the `nBuffer` bytes the transport delivered, in delivery order; and when the
transport reports fewer available bytes than `nBuffer`, it returns false. -/
theorem readRegisters_buffer_valid_or_failed (W : TwoWire σ) (command : Nat)
    (mem : Nat → Nat) (p nBuffer : Nat) (b : Bus σ) :
    ((readRegisters W command mem (some p) nBuffer b).1 = true →
      (List.range nBuffer).map
          (fun i => (readRegisters W command mem (some p) nBuffer b).2.1 (p + i))
        = delivered W nBuffer (availableAfter W command nBuffer b.dev).2)
    ∧ (toUnsigned (availableAfter W command nBuffer b.dev).1 < nBuffer →
        (readRegisters W command mem (some p) nBuffer b).1 = false) := by
  constructor
  · intro h
    apply List.ext_getElem
    · simp [delivered_length]
    · intro j h1 h2
      have hj : j < nBuffer := by simpa using h1
      simp only [List.getElem_map, List.getElem_range]
      rw [readRegisters_stored W command mem p nBuffer b h j hj]
      simp [List.getD_eq_getElem?_getD, List.getElem?_eq_getElem h2]
  · intro hlt
    cases hr : (readRegisters W command mem (some p) nBuffer b).1 with
    | false => rfl
    | true =>
      have := ((readRegisters_some_true_iff W command mem p nBuffer b).1 hr).2.2.2.2
      omega

/-- Witness for C5: a request for 33 bytes on the simulated device. -/
theorem readRegisters_rejects_without_bus_call_witness :
    32 < 33 ∧ readRegisters simWire VERSION_INFO zeroMem (some 0) 33 demoBus
      = (false, zeroMem, demoBus) :=
  ⟨by decide, readRegisters_rejects_without_bus_call simWire VERSION_INFO zeroMem (some 0) 33
    demoBus (Or.inr (by decide))⟩

/-- Witness for C6: a two-byte read of channel 0 on the simulated device
fills the buffer with the delivered bytes 0x21, 0x22; on the dead bus nothing
is available and the read fails. -/
theorem readRegisters_buffer_valid_or_failed_witness :
    ((List.range 2).map
        (fun i => (readRegisters simWire CHANNEL0_DATA zeroMem (some 0) 2 demoBus).2.1 (0 + i))
      = [0x21, 0x22])
    ∧ (readRegisters deadWire CHANNEL0_DATA zeroMem (some 0) 2 deadBus).1 = false :=
  ⟨(readRegisters_buffer_valid_or_failed simWire CHANNEL0_DATA zeroMem 0 2 demoBus).1
      (by decide),
   (readRegisters_buffer_valid_or_failed deadWire CHANNEL0_DATA zeroMem 0 2 deadBus).2
      (by decide)⟩

end RegisterFacts

/-! ## Getters and timer: facts -/

theorem toInt16_of_range (x : Int) (h : -32768 ≤ x ∧ x ≤ 32767) : toInt16 x = x := by
  unfold toInt16
  omega

theorem toInt16_range (x : Int) : -32768 ≤ toInt16 x ∧ toInt16 x ≤ 32767 := by
  unfold toInt16
  omega

/-- C8 (as stated) fails: with stored readings ch4 = 32767 and ch5 = -1 the
exact difference is 32768, and `getAmplitude` returns -32768. -/
theorem getAmplitude_overflow_counterexample :
    toInt16 (Ch demoPlatform (driverWith extremeChannels) 4) = 32767
    ∧ toInt16 (Ch demoPlatform (driverWith extremeChannels) 5) = -1
    ∧ getAmplitude demoPlatform (driverWith extremeChannels) = -32768
    ∧ getAmplitude demoPlatform (driverWith extremeChannels)
        ≠ toInt16 (Ch demoPlatform (driverWith extremeChannels) 4)
          - toInt16 (Ch demoPlatform (driverWith extremeChannels) 5) := by
  decide

/-- C8 (amended): for stored signed 16-bit readings ch4 and ch5 whose
difference fits `int16_t`, `getAmplitude` returns exactly ch4 - ch5, unscaled,
negative results included; in every case the result is ch4 - ch5 reduced to
`int16_t`. -/
theorem getAmplitude_exact_in_range (P : Platform) (d : cIQS620A) (ch4 ch5 : Int)
    (h4 : toInt16 (Ch P d 4) = ch4) (h5 : toInt16 (Ch P d 5) = ch5) :
    getAmplitude P d = toInt16 (ch4 - ch5)
    ∧ (-32768 ≤ ch4 - ch5 ∧ ch4 - ch5 ≤ 32767 → getAmplitude P d = ch4 - ch5) := by
  subst h4 h5
  exact ⟨rfl, fun h => toInt16_of_range _ h⟩

/-- Witness for C8: ch4 = 10 and ch5 = 20 give -10. -/
theorem getAmplitude_exact_in_range_witness :
    getAmplitude demoPlatform (driverWith tenTwenty) = 10 - 20 :=
  (getAmplitude_exact_in_range demoPlatform (driverWith tenTwenty) 10 20
    (by decide) (by decide)).2 (by decide)

/-- C10 (as stated) fails across a wrap of the 32-bit clock: a timer set
for 10 ms when the clock reads 4294967291 and queried when the clock reads 6
(11 ms later) reports expiry, although 6 < 4294967291 + 10. -/
theorem timerExpired_wrap_counterexample :
    millis 4294967291 = 4294967291 ∧ millis 4294967302 = 6
    ∧ (6 : Nat) < 4294967291 + 10
    ∧ (timerExpired (setTimerTime zeroTimer 10 4294967291) 4294967302).1 = true := by
  decide

/-- C10 (amended): let `setTimer(timer, D)` run at time `T0` (in milliseconds
since start-up, the clock showing the time modulo 2^32).  For every query at
a time `t` with `T0 ≤ t < T0 + 2^32`, `timerExpired` returns false when
`t < T0 + D` and true when `t ≥ T0 + D`; and after any such query a second
`setTimer(timer, D2)` at time `T1` restarts the window at `T1`. -/
theorem timerExpired_window (timer : Timer_t) (D T0 t : Nat) (hD : D < 4294967296)
    (h0 : T0 ≤ t) (h1 : t < T0 + 4294967296) :
    (t < T0 + D → (timerExpired (setTimerTime timer D T0) t).1 = false)
    ∧ (T0 + D ≤ t → (timerExpired (setTimerTime timer D T0) t).1 = true)
    ∧ ∀ D2 T1 t2, D2 < 4294967296 → T1 ≤ t2 → t2 < T1 + 4294967296 →
        (t2 < T1 + D2 →
          (timerExpired (setTimerTime (timerExpired (setTimerTime timer D T0) t).2 D2 T1) t2).1
            = false)
        ∧ (T1 + D2 ≤ t2 →
          (timerExpired (setTimerTime (timerExpired (setTimerTime timer D T0) t).2 D2 T1) t2).1
            = true) := by
  have key : ∀ (tm : Timer_t) (D T0 t : Nat), D < 4294967296 → T0 ≤ t → t < T0 + 4294967296 →
      (timerExpired (setTimerTime tm D T0) t).1 = decide (T0 + D ≤ t) := by
    intro tm D T0 t hD h0 h1
    simp only [timerExpired, setTimerTime, millis, toUint32]
    by_cases h : T0 + D ≤ t
    · rw [if_pos (by omega)]
      simp [h]
    · rw [if_neg (by omega)]
      simp [h]
  refine ⟨fun h => ?_, fun h => ?_, fun D2 T1 t2 hD2 h2 h3 => ⟨fun h => ?_, fun h => ?_⟩⟩
  · rw [key timer D T0 t hD h0 h1]
    simp
    omega
  · rw [key timer D T0 t hD h0 h1]
    simp [h]
  · rw [key _ D2 T1 t2 hD2 h2 h3]
    simp
    omega
  · rw [key _ D2 T1 t2 hD2 h2 h3]
    simp [h]

/-- Witness for C10: the wrap of the counterexample, seen in elapsed time. -/
theorem timerExpired_window_witness :
    (timerExpired (setTimerTime zeroTimer 10 4294967291) 4294967300).1 = false
    ∧ (timerExpired (setTimerTime zeroTimer 10 4294967291) 4294967301).1 = true :=
  ⟨(timerExpired_window zeroTimer 10 4294967291 4294967300 (by decide) (by decide)
      (by decide)).1 (by decide),
   (timerExpired_window zeroTimer 10 4294967291 4294967301 (by decide) (by decide)
      (by decide)).2.1 (by decide)⟩

/-! ## Configuration: facts -/

section ConfigFacts

variable {σ : Type}

theorem writeRegister_true_of_end_ok (W : TwoWire σ) (hW : ∀ s, (W.endTransmission s).1 = 0)
    (ptrSize command : Nat) (pData : Nat → Nat) (b : Bus σ) :
    (writeRegister W ptrSize command pData b).1 = true := by
  rw [writeRegister_result]
  simp [hW]

theorem writeRegister_false_of_end_bad (W : TwoWire σ) (hW : ∀ s, (W.endTransmission s).1 ≠ 0)
    (ptrSize command : Nat) (pData : Nat → Nat) (b : Bus σ) :
    (writeRegister W ptrSize command pData b).1 = false := by
  rw [writeRegister_result]
  simp [hW]

theorem readRegisters_of_end_bad (W : TwoWire σ) (hW : ∀ s, (W.endTransmission s).1 ≠ 0)
    (command : Nat) (mem : Nat → Nat) (pBuffer : Option Nat) (nBuffer : Nat) (b : Bus σ) :
    (readRegisters W command mem pBuffer nBuffer b).1 = false
    ∧ (readRegisters W command mem pBuffer nBuffer b).2.1 = mem := by
  cases pBuffer with
  | none => simp [readRegisters]
  | some p =>
    simp only [readRegisters, Bus.endTransmission]
    split_ifs <;> simp_all

theorem lor_toNat_one (x : Bool) : 1 ||| x.toNat = 1 := by
  cases x <;> decide

theorem configWrites_of_end_ok (P : Platform) (W : TwoWire σ)
    (hW : ∀ s, (W.endTransmission s).1 = 0) (b : Bus σ) : (configWrites P W b).1 = 1 := by
  simp [configWrites, writeRegister_true_of_end_ok W hW]

theorem configWrites_of_end_bad (P : Platform) (W : TwoWire σ)
    (hW : ∀ s, (W.endTransmission s).1 ≠ 0) (b : Bus σ) : (configWrites P W b).1 = 0 := by
  simp [configWrites, writeRegister_false_of_end_bad W hW]

theorem statusLoop_of_res_one (P : Platform) (W : TwoWire σ) (fuel : Nat) (d : cIQS620A)
    (b : Bus σ) :
    statusLoop P W (fuel + 1) 1 d b
      = some (1, { d with m_iqs620n :=
                    (readRegisters W SYSTEM_FLAGS d.m_iqs620n (some 0) P.ptrSize b).2.1 },
              (readRegisters W SYSTEM_FLAGS d.m_iqs620n (some 0) P.ptrSize b).2.2) := by
  simp [statusLoop, lor_toNat_one]

/-- C1 (what the code does): the result of `configureIqs620n` has the opposite
sense.  On every transport whose `endTransmission` always reports success
(so that all nine writes succeed) it returns 1, whatever the status read
does; on every transport whose `endTransmission` always reports an error (all
nine writes and the status read fail), with the attunement bit clear in the
stored status byte, it returns 0. -/
theorem configureIqs620n_result_inverted (P : Platform) (W : TwoWire σ) (fuel : Nat)
    (d : cIQS620A) (b : Bus σ) :
    ((∀ s, (W.endTransmission s).1 = 0) →
      (configureIqs620n P W (fuel + 1) d b).map Prod.fst = some 1)
    ∧ ((∀ s, (W.endTransmission s).1 ≠ 0) → InAti d = false →
      (configureIqs620n P W (fuel + 1) d b).map Prod.fst = some 0) := by
  constructor
  · intro hW
    simp [configureIqs620n, configWrites_of_end_ok P W hW, statusLoop_of_res_one]
  · intro hW hAti
    have hr := readRegisters_of_end_bad W hW SYSTEM_FLAGS d.m_iqs620n (some 0) P.ptrSize
      (configWrites P W b).2
    have hd : ({ d with m_iqs620n := (readRegisters W SYSTEM_FLAGS d.m_iqs620n (some 0)
        P.ptrSize (configWrites P W b).2).2.1 } : cIQS620A) = d := by
      rw [hr.2]
    simp [configureIqs620n, configWrites_of_end_bad P W hW, statusLoop, hr.1, hd, hAti]

/-- Witness for C1: on the simulated device every write and the status read
succeed and the result is 1; on the dead bus everything fails and the result
is 0. -/
theorem configureIqs620n_result_inverted_witness :
    ((readRegisters simWire SYSTEM_FLAGS zeroMem (some 0) 4
        (configWrites demoPlatform simWire demoBus).2).1 = true
      ∧ (configureIqs620n demoPlatform simWire 1 demoDriver demoBus).map Prod.fst = some 1)
    ∧ ((readRegisters deadWire SYSTEM_FLAGS zeroMem (some 0) 4
        (configWrites demoPlatform deadWire deadBus).2).1 = false
      ∧ (configureIqs620n demoPlatform deadWire 1 demoDriver deadBus).map Prod.fst = some 0) :=
  ⟨⟨by decide,
    (configureIqs620n_result_inverted demoPlatform simWire 0 demoDriver demoBus).1
      (fun s => by cases h : s.tx <;> simp [simWire, h])⟩,
   ⟨by decide,
    (configureIqs620n_result_inverted demoPlatform deadWire 0 demoDriver deadBus).2
      (fun _ => by simp [deadWire]) (by decide)⟩⟩

end ConfigFacts

/-! ## The simulated device: facts -/

theorem simWire_end_ok (s : SimDevice) : (simWire.endTransmission s).1 = 0 := by
  cases h : s.tx <;> simp [simWire, h]

theorem simWire_end_atiReads (s : SimDevice) :
    (simWire.endTransmission s).2.atiReads = s.atiReads := by
  cases h : s.tx <;> simp [simWire, h]

theorem simWire_read_regs (s : SimDevice) :
    (simWire.read s).2.regs = s.regs ∧ (simWire.read s).2.atiReads = s.atiReads := by
  cases h : s.rx <;> simp [simWire, h]

theorem afterReads_sim (n : Nat) (s : SimDevice) :
    (afterReads simWire n s).regs = s.regs ∧ (afterReads simWire n s).atiReads = s.atiReads := by
  induction n generalizing s with
  | zero => simp [afterReads]
  | succ n ih =>
    rw [afterReads]
    exact ⟨(ih _).1.trans (simWire_read_regs s).1, (ih _).2.trans (simWire_read_regs s).2⟩

theorem SimDevice.byte_lt (s : SimDevice) (a : Nat) : s.byte a < 256 := by
  unfold SimDevice.byte byteAt
  split
  · split <;> omega
  · omega

theorem delivered_sim (l : List Nat) (s : SimDevice) (h : s.rx = l) :
    delivered simWire l.length s = l.map (fun (x : Nat) => toUint8 (x : Int)) := by
  induction l generalizing s with
  | nil => simp [delivered]
  | cons x xs ih =>
    have hr : simWire.read s = ((x : Int), { s with rx := xs }) := by
      simp [simWire, h]
    simp only [List.length_cons, delivered, hr, List.map_cons]
    rw [ih { s with rx := xs } rfl]

theorem writeLoop_sim_atiReads (pData : Nat → Nat) (n i : Nat) (b : Bus SimDevice) :
    (writeLoop simWire pData n i b).dev.atiReads = b.dev.atiReads := by
  induction n generalizing i b with
  | zero => rfl
  | succ n ih =>
    rw [writeLoop, ih]
    simp [Bus.write, simWire]

theorem writeRegister_sim (ptrSize command : Nat) (pData : Nat → Nat) (b : Bus SimDevice) :
    (writeRegister simWire ptrSize command pData b).1 = true
    ∧ (writeRegister simWire ptrSize command pData b).2.dev.atiReads = b.dev.atiReads := by
  refine ⟨writeRegister_true_of_end_ok simWire simWire_end_ok _ _ _ _, ?_⟩
  unfold writeRegister
  simp only [Bus.endTransmission, simWire_end_ok]
  simp only [ne_eq, not_true_eq_false, if_false, simWire_end_atiReads, writeLoop_sim_atiReads]
  simp [Bus.write, Bus.beginTransmission, simWire]


theorem requested_sim (command n : Nat) (s : SimDevice) (hn : n ≤ 32) :
    addressed simWire command s = (1, { s with tx := [command % 256] })
    ∧ (ended simWire command s).1 = 0
    ∧ requested simWire command n s = (n, s.requestedState command n)
    ∧ availableAfter simWire command n s = ((n : Int), s.requestedState command n) := by
  have hn256 : n % 256 = n := Nat.mod_eq_of_lt (by omega)
  have h1 : addressed simWire command s = (1, { s with tx := [command % 256] }) := by
    simp [addressed, simWire]
  have h2 : ended simWire command s
      = (0, { s with ptr := command % 256, tx := [] }) := by
    rw [ended, h1]
    simp [simWire, storeList]
  have h3 : requested simWire command n s = (n, s.requestedState command n) := by
    rw [requested, h2, hn256]
    simp [simWire, SimDevice.requestedState, SimDevice.byte]
  refine ⟨h1, by rw [h2], h3, ?_⟩
  rw [availableAfter, h3]
  simp [simWire, SimDevice.requestedState]


theorem delivered_sim_requested (command n : Nat) (s : SimDevice) (j : Nat) (hj : j < n) :
    (delivered simWire n (s.requestedState command n)).getD j 0 = s.byte (command % 256 + j) := by
  have hl : ((List.range n).map (fun i => s.byte (command % 256 + i))).length = n := by simp
  have h := delivered_sim ((List.range n).map (fun i => s.byte (command % 256 + i)))
    (s.requestedState command n) rfl
  rw [hl] at h
  rw [h]
  simp [List.getD_eq_getElem?_getD, List.getElem?_map, List.getElem?_range hj,
    toUint8_natCast _ (SimDevice.byte_lt s _)]

/-- A register read of at most 32 bytes on the simulated device: it succeeds,
stores the registers from `command` on at `p`, `p + 1`, ..., leaves the rest of
the memory and the register file alone, and makes the calls of one read. -/
theorem readRegisters_sim (command : Nat) (mem : Nat → Nat) (p n : Nat) (b : Bus SimDevice)
    (hn : n ≤ 32) :
    (readRegisters simWire command mem (some p) n b).1 = true
    ∧ (∀ a, (readRegisters simWire command mem (some p) n b).2.1 a
        = if p ≤ a ∧ a < p + n then b.dev.byte (command % 256 + (a - p)) else mem a)
    ∧ (readRegisters simWire command mem (some p) n b).2.2.dev.regs = b.dev.regs
    ∧ (readRegisters simWire command mem (some p) n b).2.2.dev.atiReads
        = (b.dev.requestedState command n).atiReads
    ∧ (readRegisters simWire command mem (some p) n b).2.2.log
        = b.log ++ [Call.beginTransmission I2C_ADDRESS, Call.write (command % 256),
            Call.endTransmission, Call.requestFrom I2C_ADDRESS (n % 256), Call.available]
          ++ List.replicate n Call.read := by
  obtain ⟨h1, h2, h3, h4⟩ := requested_sim command n b.dev hn
  have ht : (readRegisters simWire command mem (some p) n b).1 = true :=
    (readRegisters_some_true_iff simWire command mem p n b).2
      ⟨hn, by rw [h1], h2, by rw [h3], by rw [h4]; exact toUnsigned_natCast n hn⟩
  have hEq := readRegisters_of_true simWire command mem p n b ht
  refine ⟨ht, fun a => ?_, ?_, ?_, ?_⟩
  · by_cases hin : p ≤ a ∧ a < p + n
    · rw [if_pos hin, show a = p + (a - p) by omega,
        readRegisters_stored simWire command mem p n b ht (a - p) (by omega), h4]
      simpa using delivered_sim_requested command n b.dev (a - p) (by omega)
    · rw [if_neg hin, hEq]
      exact readLoop_outside simWire p n 0 mem _ a (by omega)
  · rw [hEq, readLoop_bus, h4]
    exact (afterReads_sim n _).1
  · rw [hEq, readLoop_bus, h4]
    exact (afterReads_sim n _).2
  · rw [hEq, readLoop_bus]


/-! ## Configuration on the simulated device -/

theorem configWrites_log {σ : Type} (P : Platform) (W : TwoWire σ) (b : Bus σ) :
    (configWrites P W b).2.log
      = b.log ++ configTables.foldr (fun rt acc => sentBy P rt.1 rt.2 ++ acc) [] := by
  simp [configWrites, writeRegister_log, configTables, sentBy, List.append_assoc]

theorem requestCount_sentBy (P : Platform) (command : Nat) (table : List Nat) :
    requestCount (sentBy P command table) = 0 := by
  simp [requestCount, sentBy, List.countP_cons, List.countP_append, List.countP_map, isRequest,
    List.countP_eq_zero]

theorem requestCount_append (l₁ l₂ : List Call) :
    requestCount (l₁ ++ l₂) = requestCount l₁ + requestCount l₂ := by
  simp [requestCount, List.countP_append]

theorem requestCount_configWrites {σ : Type} (P : Platform) (W : TwoWire σ) (b : Bus σ) :
    requestCount (configWrites P W b).2.log = requestCount b.log := by
  rw [configWrites_log, requestCount_append]
  simp [configTables, requestCount_append, requestCount_sentBy]

theorem configWrites_sim_atiReads (P : Platform) (b : Bus SimDevice) :
    (configWrites P simWire b).2.dev.atiReads = b.dev.atiReads := by
  simp [configWrites, writeRegister_sim]


theorem configureIqs620n_of_end_ok {σ : Type} (P : Platform) (W : TwoWire σ)
    (hW : ∀ s, (W.endTransmission s).1 = 0) (fuel : Nat) (d : cIQS620A) (b : Bus σ) :
    configureIqs620n P W (fuel + 1) d b
      = some (1, { d with m_iqs620n :=
                    (readRegisters W SYSTEM_FLAGS d.m_iqs620n (some 0) P.ptrSize
                      (configWrites P W b).2).2.1 },
              (readRegisters W SYSTEM_FLAGS d.m_iqs620n (some 0) P.ptrSize
                (configWrites P W b).2).2.2) := by
  rw [configureIqs620n, configWrites_of_end_ok P W hW, statusLoop_of_res_one]

/-- C2 (what the code does): on the simulated device, where every write and
every read succeeds, with attunement reported for the next `k ≥ 1` status
reads, `configureIqs620n` makes exactly one register read and returns 1, with
the attunement bit set in the status byte it has stored; the device still has
`k - 1` busy status reads to report. -/
theorem configureIqs620n_returns_during_attunement (P : Platform) (fuel : Nat) (d : cIQS620A)
    (b : Bus SimDevice) (h1 : 1 ≤ P.ptrSize) (h32 : P.ptrSize ≤ 32)
    (hk : 0 < b.dev.atiReads) :
    ∃ d1 b1, configureIqs620n P simWire (fuel + 1) d b = some (1, d1, b1)
      ∧ InAti d1 = true
      ∧ requestCount b1.log = requestCount b.log + 1
      ∧ b1.dev.atiReads = b.dev.atiReads - 1 := by
  obtain ⟨-, hmem, -, hati, hlog⟩ := readRegisters_sim SYSTEM_FLAGS d.m_iqs620n 0 P.ptrSize
    (configWrites P simWire b).2 h32
  refine ⟨_, _, configureIqs620n_of_end_ok P simWire simWire_end_ok fuel d b, ?_, ?_, ?_⟩
  · have h0 := hmem 0
    rw [if_pos (by omega)] at h0
    simp only [InAti, byteAt, decide_eq_true_eq]
    rw [h0]
    simp only [SimDevice.byte, configWrites_sim_atiReads, if_pos hk, byteAt]
    rw [if_pos (by decide)]
    omega
  · simp only [hlog, requestCount_append, requestCount_configWrites]
    simp [requestCount, isRequest]
  · rw [hati]
    simp only [SimDevice.requestedState, configWrites_sim_atiReads, SYSTEM_FLAGS]
    rw [if_pos (by omega)]

/-- Witness for C2: the busy device (attunement reported for two status
reads) on the demo platform. -/
theorem configureIqs620n_returns_during_attunement_witness :
    ∃ d1 b1, configureIqs620n demoPlatform simWire 1 demoDriver busyBus = some (1, d1, b1)
      ∧ InAti d1 = true
      ∧ requestCount b1.log = requestCount busyBus.log + 1
      ∧ b1.dev.atiReads = busyBus.dev.atiReads - 1 :=
  configureIqs620n_returns_during_attunement demoPlatform 0 demoDriver busyBus
    (by decide) (by decide) (by decide)


/-! ## Start-up -/

section BeginFacts

variable {σ : Type}

theorem statusLoop_frame (P : Platform) (W : TwoWire σ) (fuel res : Nat) (d : cIQS620A)
    (b : Bus σ) (c : Nat × cIQS620A × Bus σ) (h : statusLoop P W fuel res d b = some c) :
    c.2.1.m_icType = d.m_icType ∧ c.2.1.m_buffer = d.m_buffer
    ∧ c.2.1.m_chipReady = d.m_chipReady ∧ c.2.1.m_errorTimer = d.m_errorTimer
    ∧ c.2.1.m_mainTimer = d.m_mainTimer := by
  induction fuel generalizing res d b with
  | zero => simp [statusLoop] at h
  | succ fuel ih =>
    rw [statusLoop] at h
    split at h
    · simpa using ih _ _ _ h
    · cases h
      simp

theorem configureIqs620n_frame (P : Platform) (W : TwoWire σ) (fuel : Nat) (d : cIQS620A)
    (b : Bus σ) (c : Nat × cIQS620A × Bus σ) (h : configureIqs620n P W fuel d b = some c) :
    c.2.1.m_icType = d.m_icType ∧ c.2.1.m_buffer = d.m_buffer
    ∧ c.2.1.m_chipReady = d.m_chipReady ∧ c.2.1.m_errorTimer = d.m_errorTimer
    ∧ c.2.1.m_mainTimer = d.m_mainTimer :=
  statusLoop_frame P W fuel _ d _ c h

theorem statusLoop_zero_not_InAti (P : Platform) (W : TwoWire σ) (fuel res : Nat)
    (d : cIQS620A) (b : Bus σ) (c : Nat × cIQS620A × Bus σ)
    (h : statusLoop P W fuel res d b = some c) (h0 : c.1 = 0) : InAti c.2.1 = false := by
  induction fuel generalizing res d b with
  | zero => simp [statusLoop] at h
  | succ fuel ih =>
    rw [statusLoop] at h
    split at h
    · exact ih _ _ _ h
    · rename_i hcond
      cases h
      simp only [] at h0
      simp only [not_and, Bool.not_eq_true] at hcond
      exact hcond h0

/-- Whenever `configureIqs620n` returns 0, bit 2 of the stored status byte is
clear. -/
theorem configureIqs620n_zero_not_InAti (P : Platform) (W : TwoWire σ) (fuel : Nat)
    (d : cIQS620A) (b : Bus σ) (c : Nat × cIQS620A × Bus σ)
    (h : configureIqs620n P W fuel d b = some c) (h0 : c.1 = 0) : InAti c.2.1 = false :=
  statusLoop_zero_not_InAti P W fuel _ d _ c h h0

/-- C7: let the first configuration pass of `begin` have returned, and let
(product, software, hardware) be the triple found in `m_buffer[0..2]` after
the version-info read.  If the triple is not (65, 8, 130), `begin` halts with
the bus exactly as the version-info read left it: no further call is made on
the transport, hence no channel read and no second configuration pass.  If
the triple is (65, 8, 130), `begin` records `m_icType = IQS620n` and goes on
with the second configuration pass from that bus; when that pass returns,
`begin` returns with the device type recorded and both timer durations set. -/
theorem begin_identity_check (P : Platform) (W : TwoWire σ) (fuel now : Nat) (d : cIQS620A)
    (b : Bus σ) (c : Nat × cIQS620A × Bus σ) (product software hardware : Nat)
    (hc : configureIqs620n P W fuel d b = some c)
    (hp : byteAt (versionRead W c).2.1 0 = product)
    (hs : byteAt (versionRead W c).2.1 1 = software)
    (hh : byteAt (versionRead W c).2.1 2 = hardware) :
    ((product, software, hardware) ≠ (65, 8, 130) →
      begin P W fuel now d b
        = some (Outcome.halted
            ({ c.2.1 with m_buffer := (versionRead W c).2.1 }, (versionRead W c).2.2)))
    ∧ ((product, software, hardware) = (65, 8, 130) →
      (identifiedDriver W c now).m_icType = IQS620n
      ∧ (configureIqs620n P W fuel (identifiedDriver W c now) (versionRead W c).2.2 = none
          → begin P W fuel now d b = none)
      ∧ ∀ c2, configureIqs620n P W fuel (identifiedDriver W c now) (versionRead W c).2.2
              = some c2 →
          ∃ d7 : cIQS620A, begin P W fuel now d b = some (Outcome.returned (d7, c2.2.2))
            ∧ d7.m_icType = IQS620n
            ∧ d7.m_iqs620n = c2.2.1.m_iqs620n
            ∧ d7.m_errorTimer.Timer_counter = THREE_SEC
            ∧ d7.m_mainTimer.Timer_counter = ONE_SEC) := by
  obtain ⟨res, d1, b1⟩ := c
  subst hp hs hh
  simp only [versionRead, identifiedDriver]
  constructor
  · intro hne
    have hcond : ¬ (byteAt (readRegisters W VERSION_INFO d1.m_buffer (some 0) sizeofBuffer
          b1).2.1 0 = IQS620_PRODUCT_NR
        ∧ byteAt (readRegisters W VERSION_INFO d1.m_buffer (some 0) sizeofBuffer b1).2.1 1
          = IQS620N_SOFTWARE_NR
        ∧ byteAt (readRegisters W VERSION_INFO d1.m_buffer (some 0) sizeofBuffer b1).2.1 2
          = IQS620N_HARDWARE_NR) := by
      rintro ⟨h0, h1, h2⟩
      apply hne
      simp only [versionRead, h0, h1, h2, IQS620_PRODUCT_NR, IQS620N_SOFTWARE_NR,
        IQS620N_HARDWARE_NR]
    simp only [begin, hc]
    rw [if_neg hcond]
  · intro heq
    have hcond : (byteAt (readRegisters W VERSION_INFO d1.m_buffer (some 0) sizeofBuffer
          b1).2.1 0 = IQS620_PRODUCT_NR
        ∧ byteAt (readRegisters W VERSION_INFO d1.m_buffer (some 0) sizeofBuffer b1).2.1 1
          = IQS620N_SOFTWARE_NR
        ∧ byteAt (readRegisters W VERSION_INFO d1.m_buffer (some 0) sizeofBuffer b1).2.1 2
          = IQS620N_HARDWARE_NR) := by
      simpa [versionRead, IQS620_PRODUCT_NR, IQS620N_SOFTWARE_NR, IQS620N_HARDWARE_NR]
        using heq
    refine ⟨trivial, ?_, ?_⟩
    · intro hnone
      simp only [begin, hc]
      rw [if_pos hcond]
      simp only [if_true]
      rw [hnone]
    · rintro ⟨res2, d5, b5⟩ hsome
      have hf := (configureIqs620n_frame P W fuel _ _ _ hsome).1
      simp only [begin, hc]
      rw [if_pos hcond]
      simp only [if_true]
      rw [hsome]
      exact ⟨_, rfl, hf, rfl, rfl, rfl⟩

/-- Witness for C7: with hardware number 131 `begin` halts after two register
reads (the status read of the configuration pass and the version-info read);
with the triple (65, 8, 130) it returns with the device type recorded. -/
theorem begin_identity_check_witness :
    (∃ s, begin demoPlatform simWire 1 0 demoDriver wrongBus = some (Outcome.halted s)
      ∧ requestCount s.2.log = 2)
    ∧ (∃ s, begin demoPlatform simWire 1 0 demoDriver demoBus = some (Outcome.returned s)
      ∧ s.1.m_icType = IQS620n) :=
  ⟨⟨_, (begin_identity_check demoPlatform simWire 1 0 demoDriver wrongBus wrongConfigured
        65 8 131 rfl (by decide) (by decide) (by decide)).1 (by decide),
      by decide⟩,
   match ((begin_identity_check demoPlatform simWire 1 0 demoDriver demoBus demoConfigured
        65 8 130 rfl (by decide) (by decide) (by decide)).2 rfl).2.2 demoReconfigured rfl with
   | ⟨d7, hb, ht, _⟩ => ⟨(d7, _), hb, ht⟩⟩

end BeginFacts


/-! ## Polling the simulated device -/

theorem SimDevice.byte_of_ne (s : SimDevice) (a : Nat) (h : a ≠ SYSTEM_FLAGS) :
    s.byte a = byteAt s.regs a := by
  simp [SimDevice.byte, h]

theorem readRegisters_sim_regs (command : Nat) (mem : Nat → Nat) (p n : Nat)
    (b : Bus SimDevice) (hn : n ≤ 32) :
    (readRegisters simWire command mem (some p) n b).2.2.dev.regs = b.dev.regs :=
  (readRegisters_sim command mem p n b hn).2.2.1

theorem readRegisters_sim_mem (command : Nat) (mem : Nat → Nat) (p n : Nat)
    (b : Bus SimDevice) (hn : n ≤ 32) (a : Nat) :
    (readRegisters simWire command mem (some p) n b).2.1 a
      = if p ≤ a ∧ a < p + n then b.dev.byte (command % 256 + (a - p)) else mem a :=
  (readRegisters_sim command mem p n b hn).2.1 a

theorem readRegisters_sim_data (command : Nat) (hc : 0x20 ≤ command ∧ command < 0x100)
    (mem : Nat → Nat) (p n : Nat) (b : Bus SimDevice) (hn : n ≤ 32) (a : Nat) :
    (readRegisters simWire command mem (some p) n b).2.1 a
      = if p ≤ a ∧ a < p + n then byteAt b.dev.regs (command + (a - p)) else mem a := by
  rw [readRegisters_sim_mem command mem p n b hn a, Nat.mod_eq_of_lt hc.2,
    SimDevice.byte_of_ne _ _ (by unfold SYSTEM_FLAGS; omega)]

theorem iqsRead_sim_channel (P : Platform) (d : cIQS620A) (b : Bus SimDevice)
    (tSet tCheck : Nat) (hid : d.m_icType = IQS620n) (h2 : 2 ≤ P.ptrSize)
    (h32 : P.ptrSize ≤ 32) (k e : Nat) (hk : k < 3) (he : e < 2) :
    (iqsRead P simWire tSet tCheck d b).2.1.m_iqs620n (chLow P k + e)
      = byteAt b.dev.regs (CHANNEL0_DATA + 2 * k + e) := by
  have h20 : sizeofBuffer ≤ 32 := by decide
  have hne : chLow P k + e ≠ chipReadyAt P := by
    simp only [chLow, chipReadyAt]
    omega
  simp only [iqsRead, if_pos hid]
  rw [store_other _ _ _ _ hne]
  simp only [readRegisters_sim_data CHANNEL0_DATA (by decide) _ _ _ _ h32,
    readRegisters_sim_data CHANNEL1_DATA (by decide) _ _ _ _ h32,
    readRegisters_sim_data CHANNEL2_DATA (by decide) _ _ _ _ h32,
    readRegisters_sim_data CHANNEL4_DATA (by decide) _ _ _ _ h32,
    readRegisters_sim_data CHANNEL5_DATA (by decide) _ _ _ _ h32,
    readRegisters_sim_regs _ _ _ _ _ h32, readRegisters_sim_regs _ _ _ _ _ h20, chLow]
  simp only [CHANNEL0_DATA, CHANNEL1_DATA, CHANNEL2_DATA, CHANNEL4_DATA, CHANNEL5_DATA]
  split_ifs <;> (congr 1; omega)


theorem iqsRead_sim_Ch (P : Platform) (d : cIQS620A) (b : Bus SimDevice)
    (tSet tCheck : Nat) (hid : d.m_icType = IQS620n) (h2 : 2 ≤ P.ptrSize)
    (h32 : P.ptrSize ≤ 32) (k : Nat) (hk : k < 3) :
    Ch P (iqsRead P simWire tSet tCheck d b).2.1 k
      = byteAt b.dev.regs (CHANNEL0_DATA + 2 * k)
        + 256 * byteAt b.dev.regs (CHANNEL0_DATA + 2 * k + 1) := by
  have h0 := iqsRead_sim_channel P d b tSet tCheck hid h2 h32 k 0 hk (by omega)
  have h1 := iqsRead_sim_channel P d b tSet tCheck hid h2 h32 k 1 hk (by omega)
  rw [Nat.add_zero] at h0
  rw [Nat.add_zero] at h0
  unfold Ch
  rw [byteAt, byteAt, h0, h1, Nat.mod_eq_of_lt (byteAt_lt _ _), Nat.mod_eq_of_lt (byteAt_lt _ _)]

theorem toInt16_bytes (L H : Nat) (hL : L < 256) (hH : H < 256) :
    toInt16 ((L + 256 * H : Nat) : Int) = signed16 L H := by
  unfold toInt16 signed16
  split <;> omega

/-- C9: on the simulated device (every read succeeds), for an identified
driver and a pointer size between 2 and 32: if the device holds the bytes `L`
and `H` at the data address of channel 0, 1 or 2 and at the address after it,
then after `iqsRead` the getter of that channel returns `L + 256 * H` read as
a two's complement 16-bit number. -/
theorem getSarCount_after_poll (P : Platform) (d : cIQS620A) (b : Bus SimDevice)
    (tSet tCheck : Nat) (L H : Nat) (hid : d.m_icType = IQS620n) (h2 : 2 ≤ P.ptrSize)
    (h32 : P.ptrSize ≤ 32) (hL : L < 256) (hH : H < 256) :
    (b.dev.regs CHANNEL0_DATA = L → b.dev.regs (CHANNEL0_DATA + 1) = H →
      getSarCountCh0 P (iqsRead P simWire tSet tCheck d b).2.1 = signed16 L H)
    ∧ (b.dev.regs CHANNEL1_DATA = L → b.dev.regs (CHANNEL1_DATA + 1) = H →
      getSarCountCh1 P (iqsRead P simWire tSet tCheck d b).2.1 = signed16 L H)
    ∧ (b.dev.regs CHANNEL2_DATA = L → b.dev.regs (CHANNEL2_DATA + 1) = H →
      getSarCountCh2 P (iqsRead P simWire tSet tCheck d b).2.1 = signed16 L H) := by
  refine ⟨fun h0 h1 => ?_, fun h0 h1 => ?_, fun h0 h1 => ?_⟩
  · have h0' : b.dev.regs (CHANNEL0_DATA + 2 * 0) = L := h0
    have h1' : b.dev.regs (CHANNEL0_DATA + 2 * 0 + 1) = H := h1
    rw [getSarCountCh0, iqsRead_sim_Ch P d b tSet tCheck hid h2 h32 0 (by omega), byteAt,
      byteAt, h0', h1', Nat.mod_eq_of_lt hL, Nat.mod_eq_of_lt hH]
    exact toInt16_bytes L H hL hH
  · have h0' : b.dev.regs (CHANNEL0_DATA + 2 * 1) = L := h0
    have h1' : b.dev.regs (CHANNEL0_DATA + 2 * 1 + 1) = H := h1
    rw [getSarCountCh1, iqsRead_sim_Ch P d b tSet tCheck hid h2 h32 1 (by omega), byteAt,
      byteAt, h0', h1', Nat.mod_eq_of_lt hL, Nat.mod_eq_of_lt hH]
    exact toInt16_bytes L H hL hH
  · have h0' : b.dev.regs (CHANNEL0_DATA + 2 * 2) = L := h0
    have h1' : b.dev.regs (CHANNEL0_DATA + 2 * 2 + 1) = H := h1
    rw [getSarCountCh2, iqsRead_sim_Ch P d b tSet tCheck hid h2 h32 2 (by omega), byteAt,
      byteAt, h0', h1', Nat.mod_eq_of_lt hL, Nat.mod_eq_of_lt hH]
    exact toInt16_bytes L H hL hH

/-- Witness for C9: low byte 0x34 and high byte 0x12 at channel 0 give 4660;
0xFE, 0xFF at channel 1 give -2; 0x00, 0x80 at channel 2 give -32768. -/
theorem getSarCount_after_poll_witness :
    getSarCountCh0 demoPlatform (iqsRead demoPlatform simWire 0 0 identifiedDemo channelBus).2.1
      = 4660
    ∧ getSarCountCh1 demoPlatform
        (iqsRead demoPlatform simWire 0 0 identifiedDemo channelBus).2.1 = -2
    ∧ getSarCountCh2 demoPlatform
        (iqsRead demoPlatform simWire 0 0 identifiedDemo channelBus).2.1 = -32768 :=
  ⟨(getSarCount_after_poll demoPlatform identifiedDemo channelBus 0 0 0x34 0x12 rfl
      (by decide) (by decide) (by decide) (by decide)).1 rfl rfl,
   (getSarCount_after_poll demoPlatform identifiedDemo channelBus 0 0 0xFE 0xFF rfl
      (by decide) (by decide) (by decide) (by decide)).2.1 rfl rfl,
   (getSarCount_after_poll demoPlatform identifiedDemo channelBus 0 0 0x00 0x80 rfl
      (by decide) (by decide) (by decide) (by decide)).2.2 rfl rfl⟩


/-! ## Call logs: facts -/

section LogFacts

variable {σ : Type}

theorem addressBytes_append_of_no_begin (tail rest : List Call)
    (h : ∀ x ∈ tail, isBegin x = false) :
    addressBytes (tail ++ rest) = addressBytes rest := by
  induction tail with
  | nil => rfl
  | cons x xs ih =>
    have hx := h x (List.mem_cons_self x xs)
    have hxs : ∀ y ∈ xs, isBegin y = false := fun y hy => h y (List.mem_cons_of_mem x hy)
    cases x <;> simp_all [addressBytes, isBegin]

theorem addressBytes_transaction (a x : Nat) (tail rest : List Call)
    (h : ∀ y ∈ tail, isBegin y = false) :
    addressBytes (Call.beginTransmission a :: Call.write x :: tail ++ rest)
      = x :: addressBytes rest := by
  have h1 : addressBytes (Call.beginTransmission a :: Call.write x :: (tail ++ rest))
      = x :: addressBytes (Call.write x :: (tail ++ rest)) := rfl
  have h2 : addressBytes (Call.write x :: (tail ++ rest)) = addressBytes (tail ++ rest) := rfl
  rw [List.cons_append, List.cons_append, h1, h2, addressBytes_append_of_no_begin tail rest h]

theorem transactionCount_append (l₁ l₂ : List Call) :
    transactionCount (l₁ ++ l₂) = transactionCount l₁ + transactionCount l₂ := by
  simp [transactionCount, List.countP_append]

theorem transactionCount_of_no_begin (tail : List Call) (h : ∀ x ∈ tail, isBegin x = false) :
    transactionCount tail = 0 := by
  simp only [transactionCount, List.countP_eq_zero]
  intro x hx
  simp [h x hx]

theorem transactionCount_transaction (a x : Nat) (tail : List Call)
    (h : ∀ y ∈ tail, isBegin y = false) :
    transactionCount (Call.beginTransmission a :: Call.write x :: tail) = 1 := by
  have := transactionCount_of_no_begin tail h
  simp only [transactionCount] at this ⊢
  simp [List.countP_cons, isBegin, this]

/-- The calls of one register read, for every transport: the device is
addressed with the register address, and what follows is made of
`endTransmission`, a `requestFrom` for `nBuffer` bytes, `available` and `read`
calls only. -/
theorem readRegisters_log_shape (W : TwoWire σ) (command : Nat) (mem : Nat → Nat)
    (p nBuffer : Nat) (b : Bus σ) (hn : nBuffer ≤ 32) :
    ∃ tail, (readRegisters W command mem (some p) nBuffer b).2.2.log
        = b.log ++ Call.beginTransmission I2C_ADDRESS :: Call.write (command % 256) :: tail
      ∧ ∀ x ∈ tail, x = Call.endTransmission
          ∨ x = Call.requestFrom I2C_ADDRESS (nBuffer % 256) ∨ x = Call.available
          ∨ x = Call.read := by
  simp only [readRegisters, if_neg (Nat.not_lt.2 hn)]
  split_ifs <;>
    simp only [readLoop_bus, Bus.write, Bus.beginTransmission, Bus.endTransmission,
      Bus.requestFrom, Bus.available, List.append_assoc, List.singleton_append,
      List.cons_append, List.nil_append] <;>
    refine ⟨_, rfl, ?_⟩ <;>
    (intro x hx; simp at hx; try tauto)

theorem no_begin_of_read_tail (nBuffer : Nat) (tail : List Call)
    (htail : ∀ x ∈ tail, x = Call.endTransmission
      ∨ x = Call.requestFrom I2C_ADDRESS (nBuffer % 256) ∨ x = Call.available
      ∨ x = Call.read) :
    ∀ y ∈ tail, isBegin y = false := by
  intro y hy
  rcases htail y hy with h | h | h | h <;> simp [h, isBegin]

/-- The calls any register read adds to the log: none at all, or one
transaction addressed to `command`. -/
theorem readRegisters_log_framed (W : TwoWire σ) (command : Nat) (mem : Nat → Nat)
    (pBuffer : Option Nat) (nBuffer : Nat) (b : Bus σ) :
    ∃ ext addrs, (readRegisters W command mem pBuffer nBuffer b).2.2.log = b.log ++ ext
      ∧ (∀ tl, addressBytes (ext ++ tl) = addrs ++ addressBytes tl)
      ∧ transactionCount ext = addrs.length
      ∧ (addrs = [] ∨ addrs = [command % 256])
      ∧ (nBuffer ≤ 32 → pBuffer ≠ none → addrs = [command % 256]) := by
  cases pBuffer with
  | none => exact ⟨[], [], by simp [readRegisters], by simp, rfl, Or.inl rfl, by simp⟩
  | some p =>
    by_cases hn : nBuffer ≤ 32
    · obtain ⟨tail, hlog, htail⟩ := readRegisters_log_shape W command mem p nBuffer b hn
      have hnb := no_begin_of_read_tail nBuffer tail htail
      exact ⟨_, [command % 256], hlog,
        fun tl => addressBytes_transaction I2C_ADDRESS (command % 256) tail tl hnb,
        transactionCount_transaction I2C_ADDRESS (command % 256) tail hnb, Or.inr rfl,
        fun _ _ => rfl⟩
    · exact ⟨[], [], by simp [readRegisters, Nat.lt_of_not_le hn], by simp, rfl, Or.inl rfl,
        fun h => absurd h hn⟩

theorem sentBy_framed (P : Platform) (command : Nat) (table : List Nat) :
    (∀ tl, addressBytes (sentBy P command table ++ tl) = command % 256 :: addressBytes tl)
    ∧ transactionCount (sentBy P command table) = 1 := by
  have hnb : ∀ y ∈ (List.range P.ptrSize).map
      (fun j => Call.write (tablePtr P command table j % 256)) ++ [Call.endTransmission],
      isBegin y = false := by
    intro y hy
    simp only [List.mem_append, List.mem_map, List.mem_range, List.mem_singleton] at hy
    rcases hy with ⟨j, -, rfl⟩ | rfl <;> rfl
  exact ⟨fun tl => addressBytes_transaction I2C_ADDRESS (command % 256) _ tl hnb,
    transactionCount_transaction I2C_ADDRESS (command % 256) _ hnb⟩

theorem configTransactions_framed (P : Platform) :
    (∀ tl, addressBytes (configTransactions P ++ tl)
      = [0xD0, 0x40, 0x50, 0x60, 0x70, 0x80, 0x90, 0xA0, 0xC0] ++ addressBytes tl)
    ∧ transactionCount (configTransactions P) = 9
    ∧ requestCount (configTransactions P) = 0 := by
  refine ⟨fun tl => ?_, ?_, ?_⟩
  · simp only [configTransactions, configTables, List.foldr, List.append_assoc,
      (sentBy_framed P _ _).1, List.nil_append]
    rfl
  · simp only [configTransactions, configTables, List.foldr, transactionCount_append,
      (sentBy_framed P _ _).2, List.append_nil]
  · simp [configTransactions, configTables, requestCount_append, requestCount_sentBy]

theorem statusLoop_log_framed (P : Platform) (W : TwoWire σ) (fuel res : Nat) (d : cIQS620A)
    (b : Bus σ) (c : Nat × cIQS620A × Bus σ) (h : statusLoop P W fuel res d b = some c) :
    ∃ rest k, c.2.2.log = b.log ++ rest
      ∧ ∀ tl, addressBytes (rest ++ tl)
          = List.replicate k (SYSTEM_FLAGS % 256) ++ addressBytes tl := by
  induction fuel generalizing res d b with
  | zero => simp [statusLoop] at h
  | succ fuel ih =>
    obtain ⟨ext, addrs, hlog, hfr, -, hadd, -⟩ :=
      readRegisters_log_framed W SYSTEM_FLAGS d.m_iqs620n (some 0) P.ptrSize b
    have hone : ∃ k1, addrs = List.replicate k1 (SYSTEM_FLAGS % 256) := by
      rcases hadd with h0 | h1
      · exact ⟨0, by simp [h0]⟩
      · exact ⟨1, by simp [h1]⟩
    obtain ⟨k1, hk1⟩ := hone
    rw [statusLoop] at h
    split at h
    · obtain ⟨rest, k, hrest, hfr2⟩ := ih _ _ _ h
      refine ⟨ext ++ rest, k1 + k, ?_, fun tl => ?_⟩
      · rw [hrest, hlog, List.append_assoc]
      · rw [List.append_assoc, hfr, hfr2, hk1, ← List.append_assoc, List.replicate_add]
    · cases h
      exact ⟨ext, k1, hlog, fun tl => by rw [hfr, hk1]⟩

/-- C11: for every transport, `configureIqs620n` first makes the nine register
writes, whatever their outcome: nine transactions, addressed in this order to
0xD0, 0x40, 0x50, 0x60, 0x70, 0x80, 0x90, 0xA0 and 0xC0, with no `requestFrom`
among them; and whenever it returns, what the log holds after these nine
transactions are reads addressed to the status register 0x10 only. -/
theorem configureIqs620n_write_order (P : Platform) (W : TwoWire σ) (fuel : Nat)
    (d : cIQS620A) (b : Bus σ) :
    (configWrites P W b).2.log = b.log ++ configTransactions P
    ∧ configTransactions P
        = sentBy P DEV_SETTINGS nDevSetup ++ (sentBy P PXS_SETTINGS_0 nPXS_Setup_0
          ++ (sentBy P PXS_SETTINGS_1 nPXS ++ (sentBy P PXS_UI_SETTINGS nPXSUi
          ++ (sentBy P SAR_UI_SETTINGS nSARUi ++ (sentBy P METAL_UI_SETTINGS nMetalDetect
          ++ (sentBy P HALL_SENS_SETTINGS nHall_Sens ++ (sentBy P HALL_UI_SETTINGS nHall_UI
          ++ (sentBy P TEMP_UI_SETTINGS nTemp_UI ++ []))))))))
    ∧ addressBytes (configTransactions P)
        = [0xD0, 0x40, 0x50, 0x60, 0x70, 0x80, 0x90, 0xA0, 0xC0]
    ∧ transactionCount (configTransactions P) = 9
    ∧ requestCount (configTransactions P) = 0
    ∧ ∀ c, configureIqs620n P W fuel d b = some c →
        ∃ rest, c.2.2.log = b.log ++ configTransactions P ++ rest
          ∧ ∀ x ∈ addressBytes rest, x = SYSTEM_FLAGS := by
  have hlog : (configWrites P W b).2.log = b.log ++ configTransactions P :=
    configWrites_log P W b
  refine ⟨hlog, rfl, ?_, (configTransactions_framed P).2.1, (configTransactions_framed P).2.2,
    fun c hc => ?_⟩
  · have := (configTransactions_framed P).1 []
    simpa [addressBytes] using this
  · obtain ⟨rest, k, hrest, hfr⟩ := statusLoop_log_framed P W fuel _ d _ c hc
    refine ⟨rest, by rw [hrest, hlog], fun x hx => ?_⟩
    have h0 := hfr []
    rw [List.append_nil] at h0
    rw [h0] at hx
    simp only [addressBytes, List.append_nil, List.mem_replicate] at hx
    rw [hx.2]
    rfl

/-- Witness for C11: on the dead bus, where every write fails, the nine writes
are all made and a read of the status register follows. -/
theorem configureIqs620n_write_order_witness :
    addressBytes deadConfigured.2.2.log
      = [0xD0, 0x40, 0x50, 0x60, 0x70, 0x80, 0x90, 0xA0, 0xC0, 0x10]
    ∧ ∃ rest, deadConfigured.2.2.log = deadBus.log ++ configTransactions demoPlatform ++ rest
        ∧ ∀ x ∈ addressBytes rest, x = SYSTEM_FLAGS :=
  ⟨by decide,
   (configureIqs620n_write_order demoPlatform deadWire 1 demoDriver deadBus).2.2.2.2.2
     deadConfigured rfl⟩

end LogFacts


/-! ## One poll, read by read -/

section PollFacts

variable {σ : Type}

theorem toNat_lor (x y : Bool) : x.toNat ||| y.toNat = (x || y).toNat := by
  cases x <;> cases y <;> rfl

/-- For an identified driver, `iqsRead` is the version-info read followed by
the six reads of `recordReads`, all on the object memory, and then the store
of `m_chipReady = true`; the local `res` is 1 when at least one of the seven
reads returned true and 0 otherwise. -/
theorem iqsRead_identified (P : Platform) (W : TwoWire σ) (tSet tCheck : Nat) (d : cIQS620A)
    (b : Bus σ) (hid : d.m_icType = IQS620n) :
    (iqsRead P W tSet tCheck d b).1 = (anyReadSucceeded P W d b).toNat
    ∧ (iqsRead P W tSet tCheck d b).2.1.m_iqs620n
        = store (runReads P W (recordReads P) (pollVersionRead P W d b).2.1
            (pollVersionRead P W d b).2.2).2.1 (chipReadyAt P) 1
    ∧ (∀ i, (iqsRead P W tSet tCheck d b).2.1.m_buffer i
        = (iqsRead P W tSet tCheck d b).2.1.m_iqs620n (bufferAt P + i))
    ∧ (iqsRead P W tSet tCheck d b).2.2
        = (runReads P W (recordReads P) (pollVersionRead P W d b).2.1
            (pollVersionRead P W d b).2.2).2.2 := by
  refine ⟨?_, ?_, fun i => rfl, ?_⟩
  · simp only [iqsRead, if_pos hid, anyReadSucceeded, runReads, recordReads, pollVersionRead,
      toNat_lor, List.any_cons, List.any_nil, id, Bool.or_false, Bool.or_assoc]
  · simp only [iqsRead, if_pos hid, runReads, recordReads, pollVersionRead]
  · simp only [iqsRead, if_pos hid, runReads, recordReads, pollVersionRead]

theorem requests_append (l₁ l₂ : List Call) :
    requests (l₁ ++ l₂) = requests l₁ ++ requests l₂ := by
  induction l₁ with
  | nil => rfl
  | cons x xs ih => cases x <;> simp [requests, ih]

theorem requests_replicate_read (n : Nat) : requests (List.replicate n Call.read) = [] := by
  induction n with
  | zero => rfl
  | succ n ih => simp [List.replicate_succ, requests, ih]

/-- The calls one register read adds to the log, for every transport: one
attempt to read `nBuffer` bytes from `command`; when the transport accepts
every byte written and completes every transmission, the attempt holds the
request of `nBuffer` bytes from the device. -/
theorem readRegisters_log_read (W : TwoWire σ) (command : Nat) (mem : Nat → Nat)
    (p nBuffer : Nat) (b : Bus σ) (hn : nBuffer ≤ 32) :
    ∃ t, (readRegisters W command mem (some p) nBuffer b).2.2.log = b.log ++ t
      ∧ isRegisterRead command nBuffer t = true
      ∧ (∀ tl, addressBytes (t ++ tl) = command % 256 :: addressBytes tl)
      ∧ transactionCount t = 1
      ∧ ((∀ x s, (W.write x s).1 = 1) → (∀ s, (W.endTransmission s).1 = 0) →
          requests t = [(I2C_ADDRESS, nBuffer)])
      ∧ ((∀ x s, (W.write x s).1 = 1) → (∀ s, (W.endTransmission s).1 = 0) →
          (∀ a n s, (W.requestFrom a n s).1 = n
            ∧ (W.available (W.requestFrom a n s).2).1 = (n : Int)) →
          t = completeRead command nBuffer) := by
  have hmod : nBuffer % 256 = nBuffer := Nat.mod_eq_of_lt (show nBuffer < 256 by omega)
  obtain ⟨tail, hlog, htail⟩ := readRegisters_log_shape W command mem p nBuffer b hn
  have hnb := no_begin_of_read_tail nBuffer tail htail
  refine ⟨_, hlog, ?_, fun tl => addressBytes_transaction I2C_ADDRESS (command % 256) tail tl hnb,
    transactionCount_transaction I2C_ADDRESS (command % 256) tail hnb, ?_, ?_⟩
  · have hcancel := hlog
    simp only [readRegisters, if_neg (Nat.not_lt.2 hn)] at hcancel
    split_ifs at hcancel with h1 h2 h3 h4 h5 <;>
      simp only [readLoop_bus, Bus.write, Bus.beginTransmission, Bus.endTransmission,
        Bus.requestFrom, Bus.available, List.append_assoc, List.singleton_append,
        List.cons_append, List.nil_append, List.append_cancel_left_eq, List.cons.injEq,
        true_and] at hcancel <;>
      subst hcancel <;>
      simp [isRegisterRead, isReadTail]
    all_goals
      simp only [Bus.write, Bus.beginTransmission, Bus.endTransmission, Bus.requestFrom,
        Bus.available] at h4
      omega
  · intro hw he
    have hcancel := hlog
    simp only [readRegisters, if_neg (Nat.not_lt.2 hn)] at hcancel
    split_ifs at hcancel with h1 h2 h3 h4 h5
    · exact absurd (hw _ _) h1
    · exact absurd (he _) h2
    all_goals
      simp only [readLoop_bus, Bus.write, Bus.beginTransmission, Bus.endTransmission,
        Bus.requestFrom, Bus.available, List.append_assoc, List.singleton_append,
        List.cons_append, List.nil_append, List.append_cancel_left_eq, List.cons.injEq,
        true_and] at hcancel
      subst hcancel
      simp [requests, requests_append, requests_replicate_read, hmod]
  · intro hw he hq
    have hcancel := hlog
    simp only [readRegisters, if_neg (Nat.not_lt.2 hn)] at hcancel
    have hav : ∀ s, toUnsigned (W.available (W.requestFrom I2C_ADDRESS (nBuffer % 256) s).2).1
        = nBuffer := by
      intro s
      rw [(hq _ _ s).2, hmod]
      exact toUnsigned_natCast nBuffer hn
    split_ifs at hcancel with h1 h2 h3 h4 h5
    · exact absurd (hw _ _) h1
    · exact absurd (he _) h2
    · exact absurd (by rw [Bus.requestFrom, (hq _ _ _).1, hmod]) h3
    · exact absurd h4 (by rw [Bus.available, Bus.requestFrom, hav]; omega)
    · exact absurd (by rw [Bus.available, Bus.requestFrom, hav]) h5
    · simp only [readLoop_bus, Bus.write, Bus.beginTransmission, Bus.endTransmission,
        Bus.requestFrom, Bus.available, List.append_assoc, List.singleton_append,
        List.cons_append, List.nil_append, List.append_cancel_left_eq, List.cons.injEq,
        true_and, hav] at hcancel
      subst hcancel
      rfl

/-- C12: for an identified driver and every transport, one call of `iqsRead`
adds to the call log seven attempts to read a register and nothing else, in
this order: 20 bytes from 0x00, then `sizeof(pointer)` bytes from each of
0x10, 0x20, 0x22, 0x24, 0x28 and 0x2A, whatever the outcome of each (an
attempt is the addressing of the device and the write of the register
address, then `endTransmission`, the `requestFrom` of that many bytes,
`available` and the `read` calls, as far as the transport lets it go).  So
there are exactly seven transactions, none is addressed to 0x26; when the
transport accepts every byte written and completes every transmission, all
seven requests are made; and when it also acknowledges every request in full
and then has that many bytes available, the calls added are those of seven
reads that go through, every byte requested being read. -/
theorem iqsRead_read_order (P : Platform) (W : TwoWire σ) (tSet tCheck : Nat) (d : cIQS620A)
    (b : Bus σ) (hid : d.m_icType = IQS620n) (h32 : P.ptrSize ≤ 32) :
    ∃ ext, (iqsRead P W tSet tCheck d b).2.2.log = b.log ++ ext
      ∧ addressBytes ext = [0x00, 0x10, 0x20, 0x22, 0x24, 0x28, 0x2A]
      ∧ transactionCount ext = 7
      ∧ CHANNEL3_DATA ∉ addressBytes ext
      ∧ (∃ t0 t1 t2 t3 t4 t5 t6, ext = t0 ++ (t1 ++ (t2 ++ (t3 ++ (t4 ++ (t5 ++ t6)))))
          ∧ isRegisterRead VERSION_INFO sizeofBuffer t0 = true
          ∧ isRegisterRead SYSTEM_FLAGS P.ptrSize t1 = true
          ∧ isRegisterRead CHANNEL0_DATA P.ptrSize t2 = true
          ∧ isRegisterRead CHANNEL1_DATA P.ptrSize t3 = true
          ∧ isRegisterRead CHANNEL2_DATA P.ptrSize t4 = true
          ∧ isRegisterRead CHANNEL4_DATA P.ptrSize t5 = true
          ∧ isRegisterRead CHANNEL5_DATA P.ptrSize t6 = true)
      ∧ ((∀ x s, (W.write x s).1 = 1) → (∀ s, (W.endTransmission s).1 = 0) →
          requests ext
            = (I2C_ADDRESS, sizeofBuffer) :: List.replicate 6 (I2C_ADDRESS, P.ptrSize))
      ∧ ((∀ x s, (W.write x s).1 = 1) → (∀ s, (W.endTransmission s).1 = 0) →
          (∀ a n s, (W.requestFrom a n s).1 = n
            ∧ (W.available (W.requestFrom a n s).2).1 = (n : Int)) →
          ext = completeRead VERSION_INFO sizeofBuffer ++ (completeRead SYSTEM_FLAGS P.ptrSize
            ++ (completeRead CHANNEL0_DATA P.ptrSize ++ (completeRead CHANNEL1_DATA P.ptrSize
            ++ (completeRead CHANNEL2_DATA P.ptrSize ++ (completeRead CHANNEL4_DATA P.ptrSize
            ++ completeRead CHANNEL5_DATA P.ptrSize)))))) := by
  suffices H : ∃ t0 t1 t2 t3 t4 t5 t6,
      (iqsRead P W tSet tCheck d b).2.2.log
        = b.log ++ (t0 ++ (t1 ++ (t2 ++ (t3 ++ (t4 ++ (t5 ++ t6))))))
      ∧ (isRegisterRead VERSION_INFO sizeofBuffer t0 = true
          ∧ isRegisterRead SYSTEM_FLAGS P.ptrSize t1 = true
          ∧ isRegisterRead CHANNEL0_DATA P.ptrSize t2 = true
          ∧ isRegisterRead CHANNEL1_DATA P.ptrSize t3 = true
          ∧ isRegisterRead CHANNEL2_DATA P.ptrSize t4 = true
          ∧ isRegisterRead CHANNEL4_DATA P.ptrSize t5 = true
          ∧ isRegisterRead CHANNEL5_DATA P.ptrSize t6 = true)
      ∧ addressBytes (t0 ++ (t1 ++ (t2 ++ (t3 ++ (t4 ++ (t5 ++ t6))))))
          = [0x00, 0x10, 0x20, 0x22, 0x24, 0x28, 0x2A]
      ∧ transactionCount (t0 ++ (t1 ++ (t2 ++ (t3 ++ (t4 ++ (t5 ++ t6)))))) = 7
      ∧ ((∀ x s, (W.write x s).1 = 1) → (∀ s, (W.endTransmission s).1 = 0) →
          requests (t0 ++ (t1 ++ (t2 ++ (t3 ++ (t4 ++ (t5 ++ t6))))))
            = (I2C_ADDRESS, sizeofBuffer) :: List.replicate 6 (I2C_ADDRESS, P.ptrSize))
      ∧ ((∀ x s, (W.write x s).1 = 1) → (∀ s, (W.endTransmission s).1 = 0) →
          (∀ a n s, (W.requestFrom a n s).1 = n
            ∧ (W.available (W.requestFrom a n s).2).1 = (n : Int)) →
          t0 ++ (t1 ++ (t2 ++ (t3 ++ (t4 ++ (t5 ++ t6)))))
            = completeRead VERSION_INFO sizeofBuffer ++ (completeRead SYSTEM_FLAGS P.ptrSize
            ++ (completeRead CHANNEL0_DATA P.ptrSize ++ (completeRead CHANNEL1_DATA P.ptrSize
            ++ (completeRead CHANNEL2_DATA P.ptrSize ++ (completeRead CHANNEL4_DATA P.ptrSize
            ++ completeRead CHANNEL5_DATA P.ptrSize)))))) by
    obtain ⟨t0, t1, t2, t3, t4, t5, t6, hlog, hs, hab, hc, hq, hfull⟩ := H
    refine ⟨_, hlog, hab, hc, ?_, ⟨t0, t1, t2, t3, t4, t5, t6, rfl, hs⟩, hq, hfull⟩
    rw [hab]
    decide
  simp only [iqsRead, if_pos hid]
  obtain ⟨t0, l0, s0, a0, c0, q0, f0⟩ := readRegisters_log_read W VERSION_INFO (objectMemory P d)
    (bufferAt P) sizeofBuffer b (by decide)
  generalize readRegisters W VERSION_INFO (objectMemory P d) (some (bufferAt P)) sizeofBuffer b
    = r0 at l0 ⊢
  obtain ⟨t1, l1, s1, a1, c1, q1, f1⟩ := readRegisters_log_read W SYSTEM_FLAGS r0.2.1 0 P.ptrSize
    r0.2.2 h32
  generalize readRegisters W SYSTEM_FLAGS r0.2.1 (some 0) P.ptrSize r0.2.2 = r1 at l1 ⊢
  obtain ⟨t2, l2, s2, a2, c2, q2, f2⟩ := readRegisters_log_read W CHANNEL0_DATA r1.2.1 (chLow P 0)
    P.ptrSize r1.2.2 h32
  generalize readRegisters W CHANNEL0_DATA r1.2.1 (some (chLow P 0)) P.ptrSize r1.2.2
    = r2 at l2 ⊢
  obtain ⟨t3, l3, s3, a3, c3, q3, f3⟩ := readRegisters_log_read W CHANNEL1_DATA r2.2.1 (chLow P 1)
    P.ptrSize r2.2.2 h32
  generalize readRegisters W CHANNEL1_DATA r2.2.1 (some (chLow P 1)) P.ptrSize r2.2.2
    = r3 at l3 ⊢
  obtain ⟨t4, l4, s4, a4, c4, q4, f4⟩ := readRegisters_log_read W CHANNEL2_DATA r3.2.1 (chLow P 2)
    P.ptrSize r3.2.2 h32
  generalize readRegisters W CHANNEL2_DATA r3.2.1 (some (chLow P 2)) P.ptrSize r3.2.2
    = r4 at l4 ⊢
  obtain ⟨t5, l5, s5, a5, c5, q5, f5⟩ := readRegisters_log_read W CHANNEL4_DATA r4.2.1 (chLow P 4)
    P.ptrSize r4.2.2 h32
  generalize readRegisters W CHANNEL4_DATA r4.2.1 (some (chLow P 4)) P.ptrSize r4.2.2
    = r5 at l5 ⊢
  obtain ⟨t6, l6, s6, a6, c6, q6, f6⟩ := readRegisters_log_read W CHANNEL5_DATA r5.2.1 (chLow P 5)
    P.ptrSize r5.2.2 h32
  refine ⟨t0, t1, t2, t3, t4, t5, t6, ?_, ⟨s0, s1, s2, s3, s4, s5, s6⟩, ?_, ?_, fun hw he => ?_,
    fun hw he hq => ?_⟩
  · rw [l6, l5, l4, l3, l2, l1, l0]
    simp only [List.append_assoc]
  · have h6 := a6 []
    rw [List.append_nil] at h6
    rw [a0, a1, a2, a3, a4, a5, h6]
    rfl
  · simp only [transactionCount_append, c0, c1, c2, c3, c4, c5, c6]
  · simp only [requests_append, q0 hw he, q1 hw he, q2 hw he, q3 hw he, q4 hw he, q5 hw he,
      q6 hw he]
    rfl
  · rw [f0 hw he hq, f1 hw he hq, f2 hw he hq, f3 hw he hq, f4 hw he hq, f5 hw he hq,
      f6 hw he hq]

/-- Witness for C12: a poll on the dead bus, where no transmission is completed
and every read fails before its request, and a poll of the simulated device
with four-byte pointers, where every read goes through and the seven requests
are made; the calls logged on the dead bus, the first thirty logged on the
simulated device, and `isRegisterRead` on five call sequences. -/
theorem iqsRead_read_order_witness :
    (∃ ext, (iqsRead demoPlatform deadWire 0 0 identifiedDemo deadBus).2.2.log
        = deadBus.log ++ ext
      ∧ addressBytes ext = [0x00, 0x10, 0x20, 0x22, 0x24, 0x28, 0x2A]
      ∧ transactionCount ext = 7
      ∧ CHANNEL3_DATA ∉ addressBytes ext)
    ∧ (∃ ext, (iqsRead demoPlatform simWire 0 0 identifiedDemo demoBus).2.2.log
        = demoBus.log ++ ext
      ∧ addressBytes ext = [0x00, 0x10, 0x20, 0x22, 0x24, 0x28, 0x2A]
      ∧ transactionCount ext = 7
      ∧ requests ext = [(0x44, 20), (0x44, 4), (0x44, 4), (0x44, 4), (0x44, 4), (0x44, 4),
          (0x44, 4)]
      ∧ ext = completeRead 0x00 20 ++ (completeRead 0x10 4 ++ (completeRead 0x20 4
          ++ (completeRead 0x22 4 ++ (completeRead 0x24 4 ++ (completeRead 0x28 4
          ++ completeRead 0x2A 4))))))
    ∧ (iqsRead demoPlatform deadWire 0 0 identifiedDemo deadBus).2.2.log
        = [Call.beginTransmission 0x44, Call.write 0x00, Call.endTransmission,
           Call.beginTransmission 0x44, Call.write 0x10, Call.endTransmission,
           Call.beginTransmission 0x44, Call.write 0x20, Call.endTransmission,
           Call.beginTransmission 0x44, Call.write 0x22, Call.endTransmission,
           Call.beginTransmission 0x44, Call.write 0x24, Call.endTransmission,
           Call.beginTransmission 0x44, Call.write 0x28, Call.endTransmission,
           Call.beginTransmission 0x44, Call.write 0x2A, Call.endTransmission]
    ∧ (iqsRead demoPlatform simWire 0 0 identifiedDemo demoBus).2.2.log.take 30
        = [Call.beginTransmission 0x44, Call.write 0x00, Call.endTransmission,
           Call.requestFrom 0x44 20, Call.available] ++ List.replicate 20 Call.read
          ++ [Call.beginTransmission 0x44, Call.write 0x10, Call.endTransmission,
           Call.requestFrom 0x44 4, Call.available]
    ∧ isRegisterRead VERSION_INFO 20
        [Call.beginTransmission 0x44, Call.write 0x00, Call.endTransmission] = true
    ∧ isRegisterRead VERSION_INFO 20 [Call.beginTransmission 0x44, Call.write 0x00] = true
    ∧ isRegisterRead VERSION_INFO 20 [Call.beginTransmission 0x44, Call.write 0x10] = false
    ∧ isRegisterRead SYSTEM_FLAGS 4
        [Call.beginTransmission 0x44, Call.write 0x10, Call.endTransmission,
         Call.requestFrom 0x44 4, Call.available, Call.read, Call.read, Call.read, Call.read]
        = true
    ∧ isRegisterRead SYSTEM_FLAGS 4
        [Call.beginTransmission 0x44, Call.write 0x10, Call.endTransmission,
         Call.requestFrom 0x44 1, Call.available, Call.read] = false := by
  obtain ⟨e1, h1, h2, h3, h4, -, -, -⟩ :=
    iqsRead_read_order demoPlatform deadWire 0 0 identifiedDemo deadBus rfl (by decide)
  obtain ⟨e2, k1, k2, k3, -, -, k6, k7⟩ :=
    iqsRead_read_order demoPlatform simWire 0 0 identifiedDemo demoBus rfl (by decide)
  exact ⟨⟨e1, h1, h2, h3, h4⟩,
    ⟨e2, k1, k2, k3, k6 (fun _ _ => rfl) simWire_end_ok,
      k7 (fun _ _ => rfl) simWire_end_ok (fun _ n _ => ⟨rfl, by simp [simWire]⟩)⟩,
    by decide, by decide, by decide, by decide, by decide, by decide, by decide⟩

/-- A register read changes memory only inside `[p, p + nBuffer)`, for every
transport. -/
theorem readRegisters_frame (W : TwoWire σ) (command : Nat) (mem : Nat → Nat)
    (p nBuffer : Nat) (b : Bus σ) (a : Nat) (h : a < p ∨ p + nBuffer ≤ a) :
    (readRegisters W command mem (some p) nBuffer b).2.1 a = mem a := by
  simp only [readRegisters]
  split_ifs <;> first | rfl | (apply readLoop_outside; omega)

theorem runReads_frame (P : Platform) (W : TwoWire σ) (l : List (Nat × Nat))
    (mem : Nat → Nat) (b : Bus σ) (a : Nat) (h : ∀ t ∈ l, a < t.2) :
    (runReads P W l mem b).2.1 a = mem a := by
  induction l generalizing mem b with
  | nil => rfl
  | cons t l ih =>
    simp only [runReads]
    rw [ih _ _ (fun u hu => h u (List.mem_cons_of_mem t hu))]
    exact readRegisters_frame W t.1 mem t.2 P.ptrSize b a
      (Or.inl (h t (List.mem_cons_self t l)))

theorem runReads_append (P : Platform) (W : TwoWire σ) (l₁ l₂ : List (Nat × Nat))
    (mem : Nat → Nat) (b : Bus σ) :
    (runReads P W (l₁ ++ l₂) mem b).2
      = (runReads P W l₂ (runReads P W l₁ mem b).2.1 (runReads P W l₁ mem b).2.2).2 := by
  induction l₁ generalizing mem b with
  | nil => rfl
  | cons t l ih =>
    simp only [List.cons_append, runReads]
    exact ih _ _

/-- What a record read of a poll has left below the destinations of all later
reads is still there when the poll ends. -/
theorem iqsRead_keeps (P : Platform) (W : TwoWire σ) (tSet tCheck : Nat) (d : cIQS620A)
    (b : Bus σ) (hid : d.m_icType = IQS620n) (i a : Nat)
    (h : ∀ t ∈ (recordReads P).drop (i + 1), a < t.2) (hne : a ≠ chipReadyAt P) :
    (iqsRead P W tSet tCheck d b).2.1.m_iqs620n a = recordAfterRead P W d b i a := by
  rw [(iqsRead_identified P W tSet tCheck d b hid).2.1, store_other _ _ _ _ hne, recordAfterRead]
  conv_lhs => rw [← List.take_append_drop (i + 1) (recordReads P)]
  rw [runReads_append]
  exact runReads_frame P W _ _ _ a h

/-- C13 (what the code does): for an identified driver and every transport,
the local `res` of `iqsRead` (the function has no `return` statement) is 1
when at least one of the seven reads SUCCEEDED and 0 when all of them
failed.  There is no rollback: the status byte and the two bytes of channel
slots 0, 1, 2, 4 and 5 hold at the end of the poll what the read addressed to
them has left there, whatever the later reads do. -/
theorem iqsRead_result_and_no_rollback (P : Platform) (W : TwoWire σ) (tSet tCheck : Nat)
    (d : cIQS620A) (b : Bus σ) (hid : d.m_icType = IQS620n) :
    (iqsRead P W tSet tCheck d b).1 = (anyReadSucceeded P W d b).toNat
    ∧ (0 < P.offsetofCh →
        (iqsRead P W tSet tCheck d b).2.1.m_iqs620n 0 = recordAfterRead P W d b 0 0)
    ∧ ∀ e, e < 2 →
        (iqsRead P W tSet tCheck d b).2.1.m_iqs620n (chLow P 0 + e)
          = recordAfterRead P W d b 1 (chLow P 0 + e)
        ∧ (iqsRead P W tSet tCheck d b).2.1.m_iqs620n (chLow P 1 + e)
          = recordAfterRead P W d b 2 (chLow P 1 + e)
        ∧ (iqsRead P W tSet tCheck d b).2.1.m_iqs620n (chLow P 2 + e)
          = recordAfterRead P W d b 3 (chLow P 2 + e)
        ∧ (iqsRead P W tSet tCheck d b).2.1.m_iqs620n (chLow P 4 + e)
          = recordAfterRead P W d b 4 (chLow P 4 + e)
        ∧ (iqsRead P W tSet tCheck d b).2.1.m_iqs620n (chLow P 5 + e)
          = recordAfterRead P W d b 5 (chLow P 5 + e) := by
  refine ⟨(iqsRead_identified P W tSet tCheck d b hid).1, fun h0 => ?_, fun e he => ?_⟩
  · apply iqsRead_keeps P W tSet tCheck d b hid
    · intro t ht
      simp only [recordReads, List.drop_succ_cons, List.drop_zero, List.mem_cons,
        List.mem_singleton, List.not_mem_nil, or_false] at ht
      rcases ht with rfl | rfl | rfl | rfl | rfl <;> simp only [chLow] <;> omega
    · simp only [chipReadyAt]
      omega
  · refine ⟨?_, ?_, ?_, ?_, ?_⟩ <;>
      (apply iqsRead_keeps P W tSet tCheck d b hid
       · intro t ht
         simp only [recordReads, List.drop_succ_cons, List.drop_zero, List.mem_cons,
           List.mem_singleton, List.not_mem_nil, or_false, List.drop_nil] at ht
         try (rcases ht with rfl | rfl | rfl | rfl | rfl <;> simp only [chLow] <;> omega)
       · simp only [chLow, chipReadyAt]
         omega)

/-- Witness for C13: with every read succeeding (simulated device) `res` is
1; with every read failing (dead bus) `res` is 0; and on the fading bus, where
the version, status and channel 0 reads succeed and the four later reads
fail, channel slot 0 still holds the bytes of its read. -/
theorem iqsRead_result_and_no_rollback_witness :
    (iqsRead demoPlatform simWire 0 0 identifiedDemo demoBus).1 = 1
    ∧ (iqsRead demoPlatform deadWire 0 0 identifiedDemo deadBus).1 = 0
    ∧ (runReads demoPlatform fadingWire (recordReads demoPlatform)
        (pollVersionRead demoPlatform fadingWire identifiedDemo fadingBus).2.1
        (pollVersionRead demoPlatform fadingWire identifiedDemo fadingBus).2.2).1
        = [true, true, false, false, false, false]
    ∧ (iqsRead demoPlatform fadingWire 0 0 identifiedDemo fadingBus).2.1.m_iqs620n
        (chLow demoPlatform 0 + 0) = 0x5A
    ∧ (iqsRead demoPlatform fadingWire 0 0 identifiedDemo fadingBus).2.1.m_iqs620n
        (chLow demoPlatform 0 + 1) = 0x5A :=
  ⟨(iqsRead_result_and_no_rollback demoPlatform simWire 0 0 identifiedDemo demoBus rfl).1.trans
      (by decide),
   (iqsRead_result_and_no_rollback demoPlatform deadWire 0 0 identifiedDemo deadBus rfl).1.trans
      (by decide),
   by decide,
   ((iqsRead_result_and_no_rollback demoPlatform fadingWire 0 0 identifiedDemo fadingBus
      rfl).2.2 0 (by decide)).1.trans (by decide),
   ((iqsRead_result_and_no_rollback demoPlatform fadingWire 0 0 identifiedDemo fadingBus
      rfl).2.2 1 (by decide)).1.trans (by decide)⟩

theorem timerExpired_keeps (timer : Timer_t) (now : Nat) :
    (timerExpired timer now).2.Timer_start = timer.Timer_start
    ∧ (timerExpired timer now).2.Timer_counter = timer.Timer_counter := by
  unfold timerExpired
  split <;> exact ⟨rfl, rfl⟩

/-- C14: for every prior driver state and every transport, identified or not,
after `iqsRead` the flag `m_chipReady` is true, the start of the error timer
is the clock value sampled by `setTimer` during the call, and its duration is
the one it had before. -/
theorem iqsRead_ready_and_timer (P : Platform) (W : TwoWire σ) (tSet tCheck : Nat)
    (d : cIQS620A) (b : Bus σ) :
    (iqsRead P W tSet tCheck d b).2.1.m_chipReady = true
    ∧ (iqsRead P W tSet tCheck d b).2.1.m_errorTimer.Timer_start = millis tSet
    ∧ (iqsRead P W tSet tCheck d b).2.1.m_errorTimer.Timer_counter
        = d.m_errorTimer.Timer_counter := by
  by_cases hid : d.m_icType = IQS620n
  · simp only [iqsRead, if_pos hid]
    exact ⟨trivial, (timerExpired_keeps _ tCheck).1, (timerExpired_keeps _ tCheck).2⟩
  · simp only [iqsRead, if_neg hid]
    exact ⟨trivial, (timerExpired_keeps _ tCheck).1, (timerExpired_keeps _ tCheck).2⟩

end PollFacts


/-! ## Where a register read stores -/

section StoreFacts

variable {σ : Type}

theorem readRegisters_mem_of_reached (W : TwoWire σ) (command : Nat) (mem : Nat → Nat)
    (p nBuffer : Nat) (b : Bus σ) (hn : nBuffer ≤ 32)
    (hw : (addressed W command b.dev).1 = 1) (he : (ended W command b.dev).1 = 0)
    (hq : (requested W command nBuffer b.dev).1 = nBuffer)
    (ha : toUnsigned (availableAfter W command nBuffer b.dev).1 ≤ nBuffer) :
    (readRegisters W command mem (some p) nBuffer b).2.1
      = (readLoop W p (toUnsigned (availableAfter W command nBuffer b.dev).1) 0 mem
          ⟨(availableAfter W command nBuffer b.dev).2,
           b.log ++ [Call.beginTransmission I2C_ADDRESS, Call.write (command % 256),
             Call.endTransmission, Call.requestFrom I2C_ADDRESS (nBuffer % 256),
             Call.available]⟩).1 := by
  simp only [addressed, ended, requested, availableAfter] at hw he hq ha ⊢
  simp only [readRegisters, Bus.write, Bus.beginTransmission, Bus.endTransmission,
    Bus.requestFrom, Bus.available, hw, he, hq, if_neg (Nat.not_lt.2 hn),
    if_neg (Nat.not_lt.2 ha)]
  simp only [ne_eq, not_true_eq_false, if_false, List.append_assoc, List.cons_append,
    List.nil_append]
  split <;> rfl

theorem readRegisters_mem_of_not_reached (W : TwoWire σ) (command : Nat) (mem : Nat → Nat)
    (p nBuffer : Nat) (b : Bus σ)
    (h : (addressed W command b.dev).1 ≠ 1 ∨ (ended W command b.dev).1 ≠ 0
      ∨ (requested W command nBuffer b.dev).1 ≠ nBuffer
      ∨ nBuffer < toUnsigned (availableAfter W command nBuffer b.dev).1) :
    (readRegisters W command mem (some p) nBuffer b).2.1 = mem := by
  simp only [addressed, ended, requested, availableAfter] at h
  simp only [readRegisters, Bus.write, Bus.beginTransmission, Bus.endTransmission,
    Bus.requestFrom, Bus.available]
  split_ifs <;> first | rfl | (exfalso; simp_all)

/-- C17: for every transport and every `nBuffer ≤ 32`, `readRegisters` changes
the buffer only at indices below `nBuffer`; it changes nothing when the
device could not be addressed, when the acknowledged count differs from
`nBuffer` or when more than `nBuffer` bytes are reported available; and
otherwise, with `k ≤ nBuffer` bytes reported available, it stores the `k`
bytes delivered at indices `0 .. k - 1` and leaves every byte from index `k`
on as it was. -/
theorem readRegisters_store_bounds (W : TwoWire σ) (command : Nat) (mem : Nat → Nat)
    (p nBuffer : Nat) (b : Bus σ) (hn : nBuffer ≤ 32) :
    (∀ a, a < p ∨ p + nBuffer ≤ a →
      (readRegisters W command mem (some p) nBuffer b).2.1 a = mem a)
    ∧ ((addressed W command b.dev).1 ≠ 1 ∨ (ended W command b.dev).1 ≠ 0
        ∨ (requested W command nBuffer b.dev).1 ≠ nBuffer
        ∨ nBuffer < toUnsigned (availableAfter W command nBuffer b.dev).1 →
      (readRegisters W command mem (some p) nBuffer b).2.1 = mem)
    ∧ ((addressed W command b.dev).1 = 1 → (ended W command b.dev).1 = 0 →
        (requested W command nBuffer b.dev).1 = nBuffer →
        toUnsigned (availableAfter W command nBuffer b.dev).1 ≤ nBuffer →
      (∀ i, i < toUnsigned (availableAfter W command nBuffer b.dev).1 →
        (readRegisters W command mem (some p) nBuffer b).2.1 (p + i)
          = (delivered W (toUnsigned (availableAfter W command nBuffer b.dev).1)
              (availableAfter W command nBuffer b.dev).2).getD i 0)
      ∧ ∀ a, p + toUnsigned (availableAfter W command nBuffer b.dev).1 ≤ a →
        (readRegisters W command mem (some p) nBuffer b).2.1 a = mem a) := by
  refine ⟨fun a ha => readRegisters_frame W command mem p nBuffer b a ha,
    fun h => readRegisters_mem_of_not_reached W command mem p nBuffer b h,
    fun hw he hq ha => ?_⟩
  rw [readRegisters_mem_of_reached W command mem p nBuffer b hn hw he hq ha]
  constructor
  · intro i hi
    have := readLoop_inside W p (toUnsigned (availableAfter W command nBuffer b.dev).1) 0 mem
      ⟨(availableAfter W command nBuffer b.dev).2,
       b.log ++ [Call.beginTransmission I2C_ADDRESS, Call.write (command % 256),
         Call.endTransmission, Call.requestFrom I2C_ADDRESS (nBuffer % 256),
         Call.available]⟩ i hi
    simpa using this
  · intro a ha2
    exact readLoop_outside W p _ 0 mem _ a (by omega)

/-- Witness for C17: a read of four bytes into a buffer of sevens at offset 2
on the short transport, which reports one byte available: index 0 receives
0xAB, indices 1 to 3 and the bytes around the buffer keep their 7; on the
dead bus nothing is stored. -/
theorem readRegisters_store_bounds_witness :
    ((List.range 8).map (fun a => (readRegisters shortWire CHANNEL0_DATA sevenMem (some 2) 4
        shortBus).2.1 a) = [7, 7, 0xAB, 7, 7, 7, 7, 7])
    ∧ (readRegisters shortWire CHANNEL0_DATA sevenMem (some 2) 4 shortBus).2.1 (2 + 0)
        = (delivered shortWire 1 ()).getD 0 0
    ∧ (readRegisters shortWire CHANNEL0_DATA sevenMem (some 2) 4 shortBus).2.1 3 = sevenMem 3
    ∧ (readRegisters shortWire CHANNEL0_DATA sevenMem (some 2) 4 shortBus).2.1 6 = sevenMem 6
    ∧ (readRegisters deadWire CHANNEL0_DATA sevenMem (some 2) 4 deadBus).2.1 = sevenMem :=
  ⟨by decide,
   ((readRegisters_store_bounds shortWire CHANNEL0_DATA sevenMem 2 4 shortBus (by decide)).2.2
      (by decide) (by decide) (by decide) (by decide)).1 0 (by decide),
   ((readRegisters_store_bounds shortWire CHANNEL0_DATA sevenMem 2 4 shortBus (by decide)).2.2
      (by decide) (by decide) (by decide) (by decide)).2 3 (by decide),
   (readRegisters_store_bounds shortWire CHANNEL0_DATA sevenMem 2 4 shortBus (by decide)).1 6
      (Or.inr (by decide)),
   (readRegisters_store_bounds deadWire CHANNEL0_DATA sevenMem 2 4 deadBus (by decide)).2.1
      (Or.inr (Or.inl (by decide)))⟩

end StoreFacts


/-! ## Writing a table and reading it back -/

theorem storeList_outside (m : Nat → Nat) (a : Nat) (l : List Nat) (x : Nat)
    (h : x < a ∨ a + l.length ≤ x) : storeList m a l x = m x := by
  induction l generalizing m a with
  | nil => rfl
  | cons y ys ih =>
    rw [storeList, ih]
    · exact store_other _ _ _ _ (by simp only [List.length_cons] at h; omega)
    · simp only [List.length_cons] at h
      omega

theorem storeList_inside (m : Nat → Nat) (a : Nat) (l : List Nat) (i : Nat)
    (h : i < l.length) : storeList m a l (a + i) = l.getD i 0 := by
  induction l generalizing m a i with
  | nil => simp at h
  | cons y ys ih =>
    rw [storeList]
    cases i with
    | zero =>
      rw [storeList_outside _ _ _ _ (Or.inl (by omega))]
      simp [store]
    | succ i =>
      have := ih (store m a y) (a + 1) i (by simpa using h)
      rw [show a + (i + 1) = a + 1 + i by omega, this]
      simp

theorem writeLoop_sim_dev (pData : Nat → Nat) (n i : Nat) (b : Bus SimDevice) :
    (writeLoop simWire pData n i b).dev
      = { b.dev with tx := b.dev.tx ++ (List.range n).map (fun j => pData (i + j) % 256) } := by
  induction n generalizing i b with
  | zero => simp [writeLoop]
  | succ n ih =>
    rw [writeLoop, ih, List.range_succ_eq_map]
    simp [Bus.write, simWire, List.map_map, Function.comp_def, Nat.add_assoc, Nat.add_comm 1]

theorem writeRegister_sim_regs (ptrSize command : Nat) (pData : Nat → Nat)
    (b : Bus SimDevice) :
    (writeRegister simWire ptrSize command pData b).2.dev.regs
      = storeList b.dev.regs (command % 256)
          ((List.range ptrSize).map (fun j => pData j % 256)) := by
  unfold writeRegister
  simp only [Bus.endTransmission, simWire_end_ok, ne_eq, not_true_eq_false, if_false,
    writeLoop_sim_dev]
  simp [Bus.write, Bus.beginTransmission, simWire]


theorem configTables_wellFormed :
    ∀ rt ∈ configTables, (0x20 ≤ rt.1 ∧ rt.1 < 0x100) ∧ rt.2.length ≤ 32
      ∧ ∀ x ∈ rt.2, x < 256 := by
  decide

theorem readBack_get (P : Platform) (command : Nat) (table : List Nat) (b : Bus SimDevice)
    (hc : 0x20 ≤ command ∧ command < 0x100) (hlen : table.length ≤ 32)
    (hbytes : ∀ x ∈ table, x < 256) (i : Nat) (hi : i < table.length) :
    (readBack P command table b).2.getD i 0
      = if i < P.ptrSize then table.getD i 0 else byteAt b.dev.regs (command + i) := by
  have hmem := readRegisters_sim_data command hc zeroMem 0 table.length
    (writeRegister simWire P.ptrSize command (tablePtr P command table) b).2 hlen i
  rw [if_pos (by omega), writeRegister_sim_regs, Nat.mod_eq_of_lt hc.2, Nat.sub_zero] at hmem
  have hget : (readBack P command table b).2.getD i 0
      = (readRegisters simWire command zeroMem (some 0) table.length
          (writeRegister simWire P.ptrSize command (tablePtr P command table) b).2).2.1 i := by
    simp [readBack, List.getD_eq_getElem?_getD, List.getElem?_map, List.getElem?_range hi]
  rw [hget, hmem]
  by_cases hp : i < P.ptrSize
  · rw [if_pos hp, byteAt, storeList_inside _ _ _ _ (by simpa using hp)]
    have hx : table.getD i 0 < 256 := by
      rw [List.getD_eq_getElem?_getD, List.getElem?_eq_getElem hi]
      exact hbytes _ (List.getElem_mem hi)
    have ht : tablePtr P command table i = table.getD i 0 := by
      simp [tablePtr, List.getD_eq_getElem?_getD, List.getElem?_eq_getElem hi]
    simp only [List.getD_eq_getElem?_getD, List.getElem?_map, List.getElem?_range hp,
      Option.map_some', Option.getD_some]
    rw [ht, List.getD_eq_getElem?_getD] at *
    omega
  · rw [if_neg hp, byteAt, storeList_outside _ _ _ _ (Or.inr (by simp; omega))]
    rfl


theorem readBack_length (P : Platform) (command : Nat) (table : List Nat)
    (b : Bus SimDevice) : (readBack P command table b).2.length = table.length := by
  simp [readBack]

/-- C15 (what the code does): on the simulated device, for every pointer size
and each of the nine tables, the read after the write succeeds, and byte `i`
of the buffer is byte `i` of the table only for `i` below the size of a
pointer; from there on it is what the device held at that register before
the write.  So a table no longer than a pointer is read back whole, and the
twelve-byte `nPXS_Setup_0` is not, as soon as the device held another value
at the first register the write did not reach. -/
theorem readBack_first_bytes_only (P : Platform) (b : Bus SimDevice) :
    (∀ rt ∈ configTables,
      (readBack P rt.1 rt.2 b).1 = true
      ∧ (readBack P rt.1 rt.2 b).2.length = rt.2.length
      ∧ ∀ i, i < rt.2.length →
          (readBack P rt.1 rt.2 b).2.getD i 0
            = if i < P.ptrSize then rt.2.getD i 0 else byteAt b.dev.regs (rt.1 + i))
    ∧ (∀ rt ∈ configTables, rt.2.length ≤ P.ptrSize → (readBack P rt.1 rt.2 b).2 = rt.2)
    ∧ (P.ptrSize < 12 →
        byteAt b.dev.regs (PXS_SETTINGS_0 + P.ptrSize) ≠ nPXS_Setup_0.getD P.ptrSize 0 →
        (readBack P PXS_SETTINGS_0 nPXS_Setup_0 b).2 ≠ nPXS_Setup_0) := by
  have hget : ∀ rt ∈ configTables, ∀ i, i < rt.2.length →
      (readBack P rt.1 rt.2 b).2.getD i 0
        = if i < P.ptrSize then rt.2.getD i 0 else byteAt b.dev.regs (rt.1 + i) := by
    intro rt hrt i hi
    obtain ⟨hc, hlen, hbytes⟩ := configTables_wellFormed rt hrt
    exact readBack_get P rt.1 rt.2 b hc hlen hbytes i hi
  refine ⟨fun rt hrt => ⟨?_, readBack_length P rt.1 rt.2 b, hget rt hrt⟩,
    fun rt hrt hle => ?_, fun h12 hne heq => ?_⟩
  · obtain ⟨-, hlen, -⟩ := configTables_wellFormed rt hrt
    exact (readRegisters_sim rt.1 zeroMem 0 rt.2.length _ hlen).1
  · apply List.ext_getElem (readBack_length P rt.1 rt.2 b)
    intro i h1 h2
    have := hget rt hrt i h2
    rw [if_pos (by omega)] at this
    simpa [List.getD_eq_getElem?_getD, List.getElem?_eq_getElem h1,
      List.getElem?_eq_getElem h2] using this
  · have hmem : (PXS_SETTINGS_0, nPXS_Setup_0) ∈ configTables := by decide
    have := hget _ hmem P.ptrSize (by simpa [nPXS_Setup_0] using h12)
    rw [if_neg (by omega), heq] at this
    exact hne this.symm

/-- Witness for C15: on the demo device with four-byte pointers, the
three-byte `nHall_UI` is read back whole, while of `nPXS_Setup_0` only the
first four bytes come back; the other eight are the old register contents. -/
theorem readBack_first_bytes_only_witness :
    readBack demoPlatform HALL_UI_SETTINGS nHall_UI demoBus = (true, nHall_UI)
    ∧ readBack demoPlatform PXS_SETTINGS_0 nPXS_Setup_0 demoBus
        = (true, [0x01, 0x01, 0x02, 0x67, 0x45, 0x46, 0x47, 0x48, 0x49, 0x4A, 0x4B, 0x4C])
    ∧ (readBack demoPlatform HALL_UI_SETTINGS nHall_UI demoBus).2 = nHall_UI
    ∧ (readBack demoPlatform PXS_SETTINGS_0 nPXS_Setup_0 demoBus).2 ≠ nPXS_Setup_0 :=
  ⟨by decide, by decide,
   (readBack_first_bytes_only demoPlatform demoBus).2.1 (HALL_UI_SETTINGS, nHall_UI) (by decide)
     (by decide),
   (readBack_first_bytes_only demoPlatform demoBus).2.2 (by decide) (by decide)⟩


/-! ## How many bytes the record reads ask for, and where they land -/

theorem requests_sentBy (P : Platform) (command : Nat) (table : List Nat) :
    requests (sentBy P command table) = [] := by
  have h : ∀ l : List Nat, requests (l.map Call.write ++ [Call.endTransmission]) = [] := by
    intro l
    induction l with
    | nil => rfl
    | cons x xs ih => simpa [requests] using ih
  have := h ((List.range P.ptrSize).map (fun j => tablePtr P command table j % 256))
  simpa [sentBy, requests, List.map_map, Function.comp_def] using this

theorem requests_configTransactions (P : Platform) : requests (configTransactions P) = [] := by
  simp only [configTransactions, configTables, List.foldr, requests_append, requests_sentBy,
    List.append_nil]

theorem readRegisters_sim_requests (command : Nat) (mem : Nat → Nat) (p n : Nat)
    (b : Bus SimDevice) (hn : n ≤ 32) :
    requests (readRegisters simWire command mem (some p) n b).2.2.log
      = requests b.log ++ [(I2C_ADDRESS, n)] := by
  rw [(readRegisters_sim command mem p n b hn).2.2.2.2, requests_append, requests_append,
    requests_replicate_read, Nat.mod_eq_of_lt (show n < 256 by omega)]
  simp [requests]

theorem runReads_sim_requests (P : Platform) (l : List (Nat × Nat)) (mem : Nat → Nat)
    (b : Bus SimDevice) (h32 : P.ptrSize ≤ 32) :
    requests (runReads P simWire l mem b).2.2.log
      = requests b.log ++ l.map (fun _ => (I2C_ADDRESS, P.ptrSize)) := by
  induction l generalizing mem b with
  | nil => simp [runReads]
  | cons t l ih =>
    simp only [runReads]
    rw [ih, readRegisters_sim_requests _ _ _ _ _ h32]
    simp


theorem iqsRead_sim_slot3 (P : Platform) (d : cIQS620A) (b : Bus SimDevice)
    (tSet tCheck : Nat) (hid : d.m_icType = IQS620n) (h4 : 4 ≤ P.ptrSize)
    (h32 : P.ptrSize ≤ 32) (e : Nat) (he : e < 2) :
    (iqsRead P simWire tSet tCheck d b).2.1.m_iqs620n (chLow P 3 + e)
      = byteAt b.dev.regs (CHANNEL3_DATA + e) := by
  have h20 : sizeofBuffer ≤ 32 := by decide
  have hne : chLow P 3 + e ≠ chipReadyAt P := by
    simp only [chLow, chipReadyAt]
    omega
  simp only [iqsRead, if_pos hid]
  rw [store_other _ _ _ _ hne]
  simp only [readRegisters_sim_data CHANNEL0_DATA (by decide) _ _ _ _ h32,
    readRegisters_sim_data CHANNEL1_DATA (by decide) _ _ _ _ h32,
    readRegisters_sim_data CHANNEL2_DATA (by decide) _ _ _ _ h32,
    readRegisters_sim_data CHANNEL4_DATA (by decide) _ _ _ _ h32,
    readRegisters_sim_data CHANNEL5_DATA (by decide) _ _ _ _ h32,
    readRegisters_sim_regs _ _ _ _ _ h32, readRegisters_sim_regs _ _ _ _ _ h20, chLow]
  simp only [CHANNEL0_DATA, CHANNEL1_DATA, CHANNEL2_DATA, CHANNEL3_DATA, CHANNEL4_DATA,
    CHANNEL5_DATA]
  split_ifs <;> (congr 1; omega)

/-- On the simulated device the read of channel 5, the last of a poll, stores
`sizeof(pointer)` registers from 0x2A on at `Ch[5].Ch_Low` and the bytes that
follow it in the object. -/
theorem lastRead_sim_stored (P : Platform) (d : cIQS620A) (b : Bus SimDevice)
    (h32 : P.ptrSize ≤ 32) (a : Nat) (ha : a < P.ptrSize) :
    recordAfterRead P simWire d b 5 (chLow P 5 + a)
      = byteAt b.dev.regs (CHANNEL5_DATA + a) := by
  have h20 : sizeofBuffer ≤ 32 := by decide
  simp only [recordAfterRead, recordReads, List.take, runReads, pollVersionRead]
  rw [readRegisters_sim_data CHANNEL5_DATA (by decide) _ _ _ _ h32,
    if_pos ⟨Nat.le_add_right _ _, by omega⟩]
  simp only [readRegisters_sim_regs _ _ _ _ _ h32, readRegisters_sim_regs _ _ _ _ _ h20]
  congr 2
  omega

/-- After a poll the members `m_chipReady` and `m_buffer` hold the object bytes
at their offsets: the byte of `m_chipReady` is 1, and `m_buffer[i]` is what
the seven reads have left at `bufferAt P + i`. -/
theorem iqsRead_members (P : Platform) (W : TwoWire σ) (tSet tCheck : Nat) (d : cIQS620A)
    (b : Bus σ) (hid : d.m_icType = IQS620n) :
    (iqsRead P W tSet tCheck d b).2.1.m_iqs620n (chipReadyAt P) = 1
    ∧ ∀ i, (iqsRead P W tSet tCheck d b).2.1.m_buffer i
        = recordAfterRead P W d b 5 (bufferAt P + i) := by
  refine ⟨?_, fun i => ?_⟩
  · simp only [iqsRead]
    exact store_same _ _ _
  · have hne : bufferAt P + i ≠ chipReadyAt P := by
      simp only [bufferAt, chipReadyAt]
      omega
    simp only [iqsRead, if_pos hid]
    rw [store_other _ _ _ _ hne]
    simp only [recordAfterRead, recordReads, List.take, runReads, pollVersionRead]

theorem statusRead_sim_spill (mem : Nat → Nat) (n : Nat) (b : Bus SimDevice) (hn : n ≤ 32)
    (a : Nat) (h1 : 1 ≤ a) (ha : a < n) :
    (readRegisters simWire SYSTEM_FLAGS mem (some 0) n b).2.1 a
      = byteAt b.dev.regs (SYSTEM_FLAGS + a) := by
  rw [readRegisters_sim_mem SYSTEM_FLAGS mem 0 n b hn a, if_pos (by omega),
    SimDevice.byte_of_ne _ _ (by unfold SYSTEM_FLAGS; omega)]
  congr 1

theorem writeRegister_sim_regs_low (ptrSize command : Nat) (pData : Nat → Nat)
    (b : Bus SimDevice) (x : Nat) (hc : 0x40 ≤ command ∧ command < 0x100) (hx : x < 0x40) :
    (writeRegister simWire ptrSize command pData b).2.dev.regs x = b.dev.regs x := by
  rw [writeRegister_sim_regs, Nat.mod_eq_of_lt hc.2]
  exact storeList_outside _ _ _ _ (Or.inl (by omega))

theorem configWrites_sim_regs_low (P : Platform) (b : Bus SimDevice) (x : Nat)
    (hx : x < 0x40) : (configWrites P simWire b).2.dev.regs x = b.dev.regs x := by
  simp only [configWrites,
    writeRegister_sim_regs_low _ DEV_SETTINGS _ _ x (by decide) hx,
    writeRegister_sim_regs_low _ PXS_SETTINGS_0 _ _ x (by decide) hx,
    writeRegister_sim_regs_low _ PXS_SETTINGS_1 _ _ x (by decide) hx,
    writeRegister_sim_regs_low _ PXS_UI_SETTINGS _ _ x (by decide) hx,
    writeRegister_sim_regs_low _ SAR_UI_SETTINGS _ _ x (by decide) hx,
    writeRegister_sim_regs_low _ METAL_UI_SETTINGS _ _ x (by decide) hx,
    writeRegister_sim_regs_low _ HALL_SENS_SETTINGS _ _ x (by decide) hx,
    writeRegister_sim_regs_low _ HALL_UI_SETTINGS _ _ x (by decide) hx,
    writeRegister_sim_regs_low _ TEMP_UI_SETTINGS _ _ x (by decide) hx]


/-- C16 (what the code does): on the simulated device, for an identified
driver and a pointer size of at most 32, the status read and each channel
read of `iqsRead` request `sizeof(pointer)` bytes (after the 20 bytes of the
version-info read), not 1 and 2.  The status read stores the registers that
follow the status register at the offsets `1 .. sizeof(pointer) - 1` of the
record.  With pointers of four bytes or more the poll ends with channel slot
3 holding the device registers 0x26, 0x27.  The read of channel 5 stores past
the end of the six-slot record: right after it the byte of `m_chipReady`
(offset `chLow P 5 + 2`) holds register 0x2C and `m_buffer[i]` register
`0x2D + i`, for `i + 3` below the size of a pointer.  When the poll ends the
assignment `m_chipReady = true` has put 1 in the first of these bytes, and
`m_buffer[i]` still holds register `0x2D + i` in place of byte `i` of the
version information.  The status read of `configureIqs620n` requests
`sizeof(pointer)` bytes and stores in the same way inside the record. -/
theorem record_reads_are_pointer_sized (P : Platform) (d : cIQS620A) (b : Bus SimDevice)
    (tSet tCheck fuel : Nat) (hid : d.m_icType = IQS620n) (h32 : P.ptrSize ≤ 32) :
    requests (iqsRead P simWire tSet tCheck d b).2.2.log
      = requests b.log
        ++ (I2C_ADDRESS, sizeofBuffer) :: List.replicate 6 (I2C_ADDRESS, P.ptrSize)
    ∧ (∀ a, 1 ≤ a → a < P.ptrSize →
        recordAfterRead P simWire d b 0 a = byteAt b.dev.regs (SYSTEM_FLAGS + a))
    ∧ (4 ≤ P.ptrSize → ∀ e, e < 2 →
        (iqsRead P simWire tSet tCheck d b).2.1.m_iqs620n (chLow P 3 + e)
          = byteAt b.dev.regs (CHANNEL3_DATA + e))
    ∧ (∀ a, a < P.ptrSize →
        recordAfterRead P simWire d b 5 (chLow P 5 + a) = byteAt b.dev.regs (CHANNEL5_DATA + a))
    ∧ (iqsRead P simWire tSet tCheck d b).2.1.m_iqs620n (chLow P 5 + 2) = 1
    ∧ (∀ i, i + 3 < P.ptrSize →
        (iqsRead P simWire tSet tCheck d b).2.1.m_buffer i
          = byteAt b.dev.regs (CHANNEL5_DATA + 3 + i))
    ∧ ∃ c, configureIqs620n P simWire (fuel + 1) d b = some c
        ∧ requests c.2.2.log = requests b.log ++ [(I2C_ADDRESS, P.ptrSize)]
        ∧ ∀ a, 1 ≤ a → a < P.ptrSize → a < chipReadyAt P →
            c.2.1.m_iqs620n a = byteAt b.dev.regs (SYSTEM_FLAGS + a) := by
  have h20 : sizeofBuffer ≤ 32 := by decide
  refine ⟨?_, fun a h1 ha => ?_,
    fun h4 e he => iqsRead_sim_slot3 P d b tSet tCheck hid h4 h32 e he,
    fun a ha => lastRead_sim_stored P d b h32 a ha,
    (iqsRead_members P simWire tSet tCheck d b hid).1, fun i hi => ?_,
    ⟨_, configureIqs620n_of_end_ok P simWire simWire_end_ok fuel d b, ?_, fun a h1 ha _ => ?_⟩⟩
  · rw [(iqsRead_identified P simWire tSet tCheck d b hid).2.2.2, runReads_sim_requests _ _ _ _ h32,
      pollVersionRead, readRegisters_sim_requests _ _ _ _ _ h20]
    simp [recordReads]
  · have := statusRead_sim_spill (pollVersionRead P simWire d b).2.1 P.ptrSize
      (pollVersionRead P simWire d b).2.2 h32 a h1 ha
    rw [pollVersionRead, readRegisters_sim_regs _ _ _ _ _ h20] at this
    simpa [recordAfterRead, recordReads, runReads, pollVersionRead] using this
  · rw [(iqsRead_members P simWire tSet tCheck d b hid).2 i,
      show bufferAt P + i = chLow P 5 + (3 + i) by simp only [bufferAt, chLow]; omega,
      lastRead_sim_stored P d b h32 (3 + i) (by omega), Nat.add_assoc]
  · have hcfg : (configWrites P simWire b).2.log = b.log ++ configTransactions P :=
      configWrites_log P simWire b
    simp only []
    rw [readRegisters_sim_requests _ _ _ _ _ h32, hcfg, requests_append,
      requests_configTransactions, List.append_nil]
  · simp only []
    rw [statusRead_sim_spill d.m_iqs620n P.ptrSize _ h32 a h1 ha,
      byteAt, byteAt, configWrites_sim_regs_low P b _ (by unfold SYSTEM_FLAGS; omega)]

/-- Witness for C16: a poll of the demo device by the demo driver (object all
zero, four-byte pointers, `Ch` at offset 2, so that the record is the offsets
0 to 13, `m_chipReady` offset 14 and `m_buffer[0]` offset 15).  Every record
read asks for 4 bytes; slot 3 (offsets 8, 9) ends as 0x27, 0x28; the read of
channel 5 leaves 0x2D at offset 14 and 0x2E at offset 15, where the version
read had put the product number 65; the poll ends with 1 at offset 14 and
0x2E in `m_buffer[0]`. -/
theorem record_reads_are_pointer_sized_witness :
    requests (iqsRead demoPlatform simWire 0 0 identifiedDemo demoBus).2.2.log
      = [(0x44, 20), (0x44, 4), (0x44, 4), (0x44, 4), (0x44, 4), (0x44, 4), (0x44, 4)]
    ∧ (List.range 16).map (objectMemory demoPlatform identifiedDemo)
      = [0, 0, 0, 0, 0, 0, 0, 0, 0, 0, 0, 0, 0, 0, 0, 0]
    ∧ (List.range 16).map (pollVersionRead demoPlatform simWire identifiedDemo demoBus).2.1
      = [0, 0, 0, 0, 0, 0, 0, 0, 0, 0, 0, 0, 0, 0, 0, 65]
    ∧ (List.range 16).map (recordAfterRead demoPlatform simWire identifiedDemo demoBus 5)
      = [0x11, 0x12, 0x21, 0x22, 0x23, 0x24, 0x25, 0x26, 0x27, 0x28, 0x29, 0x2A,
         0x2B, 0x2C, 0x2D, 0x2E]
    ∧ (List.range 16).map (iqsRead demoPlatform simWire 0 0 identifiedDemo demoBus).2.1.m_iqs620n
      = [0x11, 0x12, 0x21, 0x22, 0x23, 0x24, 0x25, 0x26, 0x27, 0x28, 0x29, 0x2A,
         0x2B, 0x2C, 1, 0x2E]
    ∧ (iqsRead demoPlatform simWire 0 0 identifiedDemo demoBus).2.1.m_iqs620n
        (chLow demoPlatform 3 + 0) = 0x27
    ∧ recordAfterRead demoPlatform simWire identifiedDemo demoBus 5 (chLow demoPlatform 5 + 2)
        = 0x2D
    ∧ (iqsRead demoPlatform simWire 0 0 identifiedDemo demoBus).2.1.m_iqs620n
        (chLow demoPlatform 5 + 2) = 1
    ∧ (iqsRead demoPlatform simWire 0 0 identifiedDemo demoBus).2.1.m_buffer 0 = 0x2E :=
  ⟨(record_reads_are_pointer_sized demoPlatform identifiedDemo demoBus 0 0 0 rfl
      (by decide)).1,
   by decide, by decide, by decide, by decide,
   ((record_reads_are_pointer_sized demoPlatform identifiedDemo demoBus 0 0 0 rfl
      (by decide)).2.2.1 (by decide) 0 (by decide)).trans (by decide),
   ((record_reads_are_pointer_sized demoPlatform identifiedDemo demoBus 0 0 0 rfl
      (by decide)).2.2.2.1 2 (by decide)).trans (by decide),
   (record_reads_are_pointer_sized demoPlatform identifiedDemo demoBus 0 0 0 rfl
      (by decide)).2.2.2.2.1,
   ((record_reads_are_pointer_sized demoPlatform identifiedDemo demoBus 0 0 0 rfl
      (by decide)).2.2.2.2.2.1 0 (by decide)).trans (by decide)⟩

end Iqs620a
